import Mathlib

/-!
Verification development for the pydoctor value colorizer
(`pydoctor/epydoc/markup/_pyval_repr.py`).

The Python module renders arbitrary runtime values and AST expressions as a
sequence of styled markup fragments, with line-wrapping, a maximum line
budget, a compact-then-multiline backtracking strategy, and a confidence
score.  This file shallowly embeds the colorizer: docutils nodes become the
`Fragment` inductive, the mutable `_ColorizerState` becomes an explicit
state record threaded through every operation, and the two control-flow
exceptions (`_Maxlines`, `_Linebreak`) together with ordinary Python
exceptions become an `Option PyErr` component of each result.
-/

set_option maxHeartbeats 4000000
set_option maxRecDepth 4000
set_option linter.unusedVariables false
set_option linter.unreachableTactic false
set_option linter.unusedTactic false

namespace PydoctorRepr

/-- One entry of the colorizer's result list.  In the source these are
docutils nodes: `nodes.Text` (plain), `nodes.inline` with a css class list,
`obj_reference` (a link candidate carrying a dotted name), the `newline()`
node, and the zero-width word-break-opportunity node `wbr()`. -/
inductive Fragment where
  | text (s : String)
  | inline (cls : String) (s : String)
  | link (s : String)
  | newline
  | wbr
deriving DecidableEq, Repr

/-- Text carried by a fragment (docutils `astext`). -/
def Fragment.astext : Fragment → String
  | .text s => s
  | .inline _ s => s
  | .link s => s
  | .newline => "\n"
  | .wbr => ""

/-- Concatenated text of a fragment list. -/
def concatText (fs : List Fragment) : String :=
  fs.foldl (fun acc f => acc ++ f.astext) ""

-- Colorization tags (`PyvalColorizer` class constants).  Several are None
-- in the source, meaning the text is emitted as a plain `nodes.Text`.
def GROUP_TAG : Option String := none
def COMMA_TAG : Option String := none
def COLON_TAG : Option String := none
def CONST_TAG : Option String := none
def NUMBER_TAG : Option String := none
def QUOTE_TAG : Option String := some "variable-quote"
def STRING_TAG : Option String := some "variable-string"
def LINK_TAG : Option String := some "variable-link"
def ELLIPSIS_TAG : Option String := some "variable-ellipsis"
def LINEWRAP_TAG : Option String := some "variable-linewrap"
def UNKNOWN_TAG : Option String := some "variable-unknown"
def RE_CHAR_TAG : Option String := none
def RE_GROUP_TAG : Option String := some "re-group"
def RE_REF_TAG : Option String := some "re-ref"
def RE_OP_TAG : Option String := some "re-op"
def RE_FLAGS_TAG : Option String := some "re-flags"

/-- `PyvalColorizer.ELLIPSIS = nodes.inline('...', '...', classes=[ELLIPSIS_TAG])`. -/
def ELLIPSIS : Fragment := .inline "variable-ellipsis" "..."

/-- `PyvalColorizer.LINEWRAP = nodes.inline('', chr(8629), classes=[LINEWRAP_TAG])`. -/
def LINEWRAP : Fragment := .inline "variable-linewrap" (String.mk [Char.ofNat 8629])

/-- `PyvalColorizer.UNKNOWN_REPR = nodes.inline('??', '??', classes=[UNKNOWN_TAG])`. -/
def UNKNOWN_REPR : Fragment := .inline "variable-unknown" "??"

/-- `PyvalColorizer.WORD_BREAK_OPPORTUNITY = wbr()`. -/
def WORD_BREAK_OPPORTUNITY : Fragment := .wbr

/-- `PyvalColorizer.NEWLINE = newline()`. -/
def NEWLINE : Fragment := .newline

/-- Configuration fixed at `PyvalColorizer` construction: `linelen`
(optional width limit), `maxlines`, `linebreakok`. -/
structure Cfg where
  linelen : Option Nat
  maxlines : Nat
  linebreakok : Bool
deriving DecidableEq, Repr

/-- `_ColorizerState`: result fragments, current column (`charpos`),
current line number (`lineno`, starting at 1), whether line breaks are
currently permitted, and the quality score. -/
structure ColorizerState where
  result : List Fragment
  charpos : Nat
  lineno : Nat
  linebreakok : Bool
  score : Int
deriving DecidableEq, Repr

/-- `_ColorizerState.__init__`, with `linebreakok` then overwritten from the
colorizer configuration as at the top of `colorize`. -/
def initState (cfg : Cfg) : ColorizerState :=
  { result := [], charpos := 0, lineno := 1, linebreakok := cfg.linebreakok, score := 0 }

/-- `_MarkedColorizerState`: the snapshot taken by `mark()`. -/
structure MarkedColorizerState where
  length : Nat
  charpos : Nat
  lineno : Nat
  linebreakok : Bool
  score : Int
deriving DecidableEq, Repr

/-- `_ColorizerState.mark`. -/
def markOf (st : ColorizerState) : MarkedColorizerState :=
  { length := st.result.length, charpos := st.charpos, lineno := st.lineno,
    linebreakok := st.linebreakok, score := st.score }

/-- `_ColorizerState.restore`: reset the scalar fields and truncate the
result list back to the marked length (`del self.result[mark.length:]`). -/
def restoreSt (mark : MarkedColorizerState) (st : ColorizerState) : ColorizerState :=
  { result := st.result.take mark.length, charpos := mark.charpos, lineno := mark.lineno,
    linebreakok := mark.linebreakok, score := mark.score }

/-- Exceptions that can travel out of a colorization step: the two
control-flow exceptions `_Maxlines` and `_Linebreak`, plus the ordinary
Python exceptions that the AST/regex paths can raise (`TypeError`,
`ValueError`, `re.error`, `IndexError`). -/
inductive PyErr where
  | maxlines
  | linebreak
  | typeError
  | valueError
  | reError
  | indexError
deriving DecidableEq, Repr

/-- Sequencing of stateful steps: the second step runs only when the first
did not raise; a raised exception carries along the (mutated) state, just
as a Python exception leaves the mutable state object behind. -/
def seqE (m : ColorizerState × Option PyErr)
    (f : ColorizerState → ColorizerState × Option PyErr) :
    ColorizerState × Option PyErr :=
  match m with
  | (st, none) => f st
  | (st, some e) => (st, some e)

/-- `str.split('\n')` on the character list of a Python string. -/
def splitNlList : List Char → List (List Char)
  | [] => [[]]
  | c :: rest =>
    if c = '\n' then [] :: splitNlList rest
    else
      match splitNlList rest with
      | [] => [[c]]
      | l :: ls => (c :: l) :: ls

/-- Python slice `s[:i]` with Python's negative-index semantics. -/
def pyTake (l : List Char) (i : Int) : List Char :=
  if i < 0 then l.take (l.length - min l.length i.natAbs) else l.take i.toNat

/-- Python slice `s[i:]` with Python's negative-index semantics. -/
def pyDrop (l : List Char) (i : Int) : List Char :=
  if i < 0 then l.drop (l.length - min l.length i.natAbs) else l.drop i.toNat

theorem pyDrop_length_le (l : List Char) (i : Int) : (pyDrop l i).length ≤ l.length := by
  unfold pyDrop
  split <;> simp

theorem mkLength (l : List Char) : (String.mk l).length = l.length := rfl

/-- The fragment appended for a fitting segment in `_output`: a link
(`obj_reference`) when `link` is set, else a styled inline when a css class
is given, else plain text. -/
def mkFragment (css : Option String) (link : Bool) (seg : List Char) : Fragment :=
  if link then Fragment.link (String.mk seg)
  else
    match css with
    | some c => Fragment.inline c (String.mk seg)
    | none => Fragment.text (String.mk seg)

/-- Combined length of a pending segment list (used only as the
termination measure of `outputGo`). -/
def segsLen (segs : List (List Char)) : Nat :=
  segs.foldr (fun s acc => s.length + 1 + acc) 0

theorem segsLen_cons (s : List Char) (r : List (List Char)) :
    segsLen (s :: r) = s.length + 1 + segsLen r := rfl

theorem measA (M l T : Nat) (h : l + 1 ≤ M) :
    (M + 1 - (l + 1)) * (2 * T + 2) + 2 * T + 1
      < (M + 1 - l) * (2 * T + 2) + 2 * T := by
  have h2 : M + 1 - l = (M + 1 - (l + 1)) + 1 := by omega
  have hb : (M + 1 - l) * (2 * T + 2) = (M + 1 - (l + 1)) * (2 * T + 2) + (2 * T + 2) := by
    rw [h2]; ring
  rw [hb]
  generalize (M + 1 - (l + 1)) * (2 * T + 2) = X
  omega

theorem measLe (A T T' : Nat) (h : T' ≤ T) :
    A * (2 * T' + 2) + 2 * T' < A * (2 * T + 2) + 2 * T + 1 := by
  have hm : A * (2 * T' + 2) ≤ A * (2 * T + 2) :=
    Nat.mul_le_mul_left A (by omega)
  calc A * (2 * T' + 2) + 2 * T' ≤ A * (2 * T + 2) + 2 * T :=
        Nat.add_le_add hm (by omega)
    _ < A * (2 * T + 2) + 2 * T + 1 := Nat.lt_succ_self _

/-- The segment loop of `PyvalColorizer._output`.  The chunk has been split
on embedded newlines into `segs`; `first` is true exactly for the first
segment (Python's `i == 0`).  For a later segment the sink first checks the
line budget (raising `_Maxlines`), then the break flag (raising
`_Linebreak`), then appends a newline fragment.  A fitting segment (or any
link) is appended whole; otherwise the segment is split at the remaining
width, a line-wrap marker is appended, and the remainder is re-queued as a
fresh non-first segment. -/
def outputGo (cfg : Cfg) (css : Option String) (link : Bool) :
    List (List Char) → Bool → ColorizerState → ColorizerState × Option PyErr
  | [], _, st => (st, none)
  | seg :: rest, false, st =>
    if cfg.maxlines < st.lineno + 1 then (st, some PyErr.maxlines)
    else if st.linebreakok = false then (st, some PyErr.linebreak)
    else
      outputGo cfg css link (seg :: rest) true
        { st with result := st.result ++ [NEWLINE], lineno := st.lineno + 1, charpos := 0 }
  | seg :: rest, true, st =>
    if cfg.linelen = none ∨ st.charpos + seg.length ≤ cfg.linelen.getD 0 ∨ link = true then
      outputGo cfg css link rest false
        { st with charpos := st.charpos + seg.length,
                  result := st.result ++ [mkFragment css link seg] }
    else
      outputGo cfg css link (pyDrop seg ((cfg.linelen.getD 0 : Int) - (st.charpos : Int)) :: rest) false
        { st with result := st.result ++
            [mkFragment css false (pyTake seg ((cfg.linelen.getD 0 : Int) - (st.charpos : Int))),
             LINEWRAP] }
termination_by segs first st =>
  (cfg.maxlines + 1 - st.lineno) * (2 * segsLen segs + 2) + 2 * segsLen segs
    + (if first then 1 else 0)
decreasing_by
  · have hle : st.lineno + 1 ≤ cfg.maxlines := by omega
    simpa using measA cfg.maxlines st.lineno (segsLen (seg :: rest)) hle
  · have hT : segsLen rest ≤ segsLen (seg :: rest) := by
      rw [segsLen_cons]; omega
    simpa using measLe (cfg.maxlines + 1 - st.lineno) (segsLen (seg :: rest)) (segsLen rest) hT
  · have hT : segsLen (pyDrop seg ((cfg.linelen.getD 0 : Int) - (st.charpos : Int)) :: rest)
        ≤ segsLen (seg :: rest) := by
      rw [segsLen_cons, segsLen_cons]
      have := pyDrop_length_le seg ((cfg.linelen.getD 0 : Int) - (st.charpos : Int))
      omega
    simpa using measLe (cfg.maxlines + 1 - st.lineno) (segsLen (seg :: rest)) _ hT

/-- `PyvalColorizer._output`: split the text on embedded newlines and run
the segment loop.  (The bytes branch is not needed: the embedded value
domain contains only text strings.) -/
def output (cfg : Cfg) (s : String) (css : Option String) (link : Bool)
    (st : ColorizerState) : ColorizerState × Option PyErr :=
  outputGo cfg css link (splitNlList s.data) true st

/-- `PyvalColorizer._insert_comma`. -/
def insertComma (cfg : Cfg) (indent : Nat) (st : ColorizerState) : ColorizerState × Option PyErr :=
  if st.linebreakok then
    seqE (output cfg "," COMMA_TAG false st) fun st1 =>
      output cfg ("\n" ++ String.mk (List.replicate indent ' ')) none false st1
  else
    output cfg ", " COMMA_TAG false st

/-- `PyvalColorizer._multiline`: run the renderer with line breaks
disallowed; on success restore the caller's break flag.  If the attempt
raised `_Linebreak`: re-raise when the caller's own flag was already false,
otherwise restore the pre-attempt snapshot and re-run the renderer with
line breaks allowed.  Other exceptions propagate unchanged. -/
def multiline (f : ColorizerState → ColorizerState × Option PyErr)
    (st : ColorizerState) : ColorizerState × Option PyErr :=
  let linebreakok := st.linebreakok
  let mark := markOf st
  match f { st with linebreakok := false } with
  | (st1, none) => ({ st1 with linebreakok := linebreakok }, none)
  | (st1, some PyErr.linebreak) =>
    if linebreakok = false then (st1, some PyErr.linebreak)
    else f (restoreSt mark st1)
  | (st1, some e) => (st1, some e)

/-- `PyvalColorizer._trim_result`: chip `numChars` characters off the tail
of the result list.  Plain text nodes are trimmed directly; element nodes
(styled inlines, links) have their single text child trimmed and are popped
once empty; childless elements (the word-break node) are popped without
consuming the budget.  The newline node behaves as a one-character text
node. -/
def trimResult : Nat → List Fragment → List Fragment
  | 0, res => res
  | _ + 1, [] => []
  | numChars + 1, f0 :: rest =>
    match (f0 :: rest).getLast? with
    | none => f0 :: rest
    | some Fragment.wbr => trimResult (numChars + 1) (f0 :: rest).dropLast
    | some Fragment.newline => trimResult numChars (f0 :: rest).dropLast
    | some (Fragment.text s) =>
      let t := min (numChars + 1) s.length
      let s2 := String.mk (s.data.take (s.length - t))
      if hs2c : s2.length = 0 then trimResult (numChars + 1 - t) (f0 :: rest).dropLast
      else trimResult (numChars + 1 - t) ((f0 :: rest).dropLast ++ [Fragment.text s2])
    | some (Fragment.inline cls s) =>
      let t := min (numChars + 1) s.length
      let s2 := String.mk (s.data.take (s.length - t))
      if hs2c : s2.length = 0 then trimResult (numChars + 1 - t) (f0 :: rest).dropLast
      else trimResult (numChars + 1 - t) ((f0 :: rest).dropLast ++ [Fragment.inline cls s2])
    | some (Fragment.link s) =>
      let t := min (numChars + 1) s.length
      let s2 := String.mk (s.data.take (s.length - t))
      if hs2c : s2.length = 0 then trimResult (numChars + 1 - t) (f0 :: rest).dropLast
      else trimResult (numChars + 1 - t) ((f0 :: rest).dropLast ++ [Fragment.link s2])
termination_by n res => 2 * n + res.length
decreasing_by
  all_goals
    have hdl : (f0 :: rest).dropLast.length = rest.length := by simp
  · simp only [hdl, List.length_cons]; omega
  · simp only [hdl, List.length_cons]; omega
  · simp only [hdl, List.length_cons]; omega
  · have hs2e : s2 = String.mk (s.data.take (s.length - min (numChars + 1) s.length)) := rfl
    have hte : t = min (numChars + 1) s.length := rfl
    have hmk := mkLength (s.data.take (s.length - min (numChars + 1) s.length))
    have htk := List.length_take (s.length - min (numChars + 1) s.length) s.data
    have hsd : s.data.length = s.length := rfl
    rw [hs2e] at hs2c
    have happ : ((f0 :: rest).dropLast ++
        [Fragment.text (String.mk (s.data.take (s.length - min (numChars + 1) s.length)))]).length
        = rest.length + 1 := by simp
    simp only [happ, List.length_cons]
    omega
  · simp only [hdl, List.length_cons]; omega
  · have hs2e : s2 = String.mk (s.data.take (s.length - min (numChars + 1) s.length)) := rfl
    have hte : t = min (numChars + 1) s.length := rfl
    have hmk := mkLength (s.data.take (s.length - min (numChars + 1) s.length))
    have htk := List.length_take (s.length - min (numChars + 1) s.length) s.data
    have hsd : s.data.length = s.length := rfl
    rw [hs2e] at hs2c
    have happ : ((f0 :: rest).dropLast ++
        [Fragment.inline cls (String.mk (s.data.take (s.length - min (numChars + 1) s.length)))]).length
        = rest.length + 1 := by simp
    simp only [happ, List.length_cons]
    omega
  · simp only [hdl, List.length_cons]; omega
  · have hs2e : s2 = String.mk (s.data.take (s.length - min (numChars + 1) s.length)) := rfl
    have hte : t = min (numChars + 1) s.length := rfl
    have hmk := mkLength (s.data.take (s.length - min (numChars + 1) s.length))
    have htk := List.length_take (s.length - min (numChars + 1) s.length) s.data
    have hsd : s.data.length = s.length := rfl
    rw [hs2e] at hs2c
    have happ : ((f0 :: rest).dropLast ++
        [Fragment.link (String.mk (s.data.take (s.length - min (numChars + 1) s.length)))]).length
        = rest.length + 1 := by simp
    simp only [happ, List.length_cons]
    omega

/-- Case-insensitive hexadecimal digit test (`[0-9a-f]` under
`re.IGNORECASE`). -/
def isHexDigitCh (c : Char) : Bool :=
  (48 ≤ c.toNat && c.toNat ≤ 57) || (97 ≤ c.toNat && c.toNat ≤ 102)
    || (65 ≤ c.toNat && c.toNat ≤ 70)

/-- Tail match for `GENERIC_OBJECT_RE`: the part after the description must
look like `' at 0x'` followed by one or more hex digits (case-insensitive,
per the `re.IGNORECASE` flag on the pattern). -/
def matchAddrTail : List Char → Bool
  | ' ' :: a :: t :: ' ' :: '0' :: x :: rest =>
    (a = 'a' || a = 'A') && (t = 't' || t = 'T') && (x = 'x' || x = 'X')
      && !rest.isEmpty && rest.all isHexDigitCh
  | _ => false

/-- `GENERIC_OBJECT_RE.search` for the anchored pattern
`^<(?P<descr>.*) at (?P<addr>0x[0-9a-f]+)>$` (IGNORECASE): returns the
greedy `descr` group when the whole string matches.  (`$` also matches just
before a final newline; `.` does not match a newline.) -/
def genericObjectDescr (s : String) : Option String :=
  let cs0 := s.data
  let cs := if cs0.getLast? = some '\n' then cs0.dropLast else cs0
  match cs with
  | '<' :: rest =>
    if rest.getLast? = some '>' then
      let body := rest.dropLast
      (List.range (body.length + 1)).reverse.findSome? fun i =>
        if matchAddrTail (body.drop i) && !(body.take i).contains '\n' then
          some (String.mk (body.take i))
        else none
    else none
  | _ => none

/-- Decimal digits of a natural number, most significant first
(accumulator form of Python's `str` for naturals). -/
def natDigitsAux : Nat → List Char → List Char
  | n, acc =>
    let d := Char.ofNat (48 + n % 10)
    if h : n < 10 then d :: acc else natDigitsAux (n / 10) (d :: acc)
termination_by n _ => n
decreasing_by
  exact Nat.div_lt_self (by omega) (by omega)

/-- Python `str` of a natural number. -/
def natStr (n : Nat) : String := String.mk (natDigitsAux n [])

/-- Python `str` of an integer. -/
def intStr (n : Int) : String :=
  if n < 0 then "-" ++ natStr n.natAbs else natStr n.toNat

/-- Lowercase hexadecimal digit. -/
def hexDigit (k : Nat) : Char :=
  if k < 10 then Char.ofNat (48 + k) else Char.ofNat (87 + k)

/-- `%02x`. -/
def hex2 (v : Nat) : String := String.mk [hexDigit (v / 16 % 16), hexDigit (v % 16)]

/-- `%04x`. -/
def hex4 (v : Nat) : String :=
  String.mk [hexDigit (v / 4096 % 16), hexDigit (v / 256 % 16), hexDigit (v / 16 % 16),
    hexDigit (v % 16)]

/-- `%08x`. -/
def hex8 (v : Nat) : String := hex4 (v / 65536 % 16777216 / 1) ++ hex4 (v % 65536)

/-- The per-character escape of `PyvalColorizer._str_escape`: `'` becomes
`\'`; characters up to `0xff` go through `unicode-escape` (which maps tab,
newline, carriage return and backslash to named escapes, keeps printable
ASCII, and renders other small code points as `\xHH`); higher code points
are kept as-is. -/
def escChar (c : Char) : String :=
  if c = '\'' then "\\'"
  else if c.toNat ≤ 0xff then
    if c = '\t' then "\\t"
    else if c = '\n' then "\\n"
    else if c = '\r' then "\\r"
    else if c = '\\' then "\\\\"
    else if 32 ≤ c.toNat && c.toNat < 127 then String.mk [c]
    else "\\x" ++ hex2 c.toNat
  else String.mk [c]

/-- `PyvalColorizer._str_escape`. -/
def strEscape (s : String) : String := String.join (s.data.map escChar)

mutual
/-- The embedded universe of runtime values accepted by
`PyvalColorizer._colorize`: the linked singleton constants, integers, text
strings, the built-in containers, AST nodes, and `other`, an arbitrary
object outside the specially handled categories, represented by the result
of `repr` on it (`none` when `repr` itself raises). -/
inductive PyVal where
  | bool (b : Bool)
  | pynone
  | notImplemented
  | int (n : Int)
  | str (s : String)
  | tuple (elts : List PyVal)
  | pyset (elts : List PyVal)
  | frozenset (elts : List PyVal)
  | list (elts : List PyVal)
  | dict (items : List (PyVal × PyVal))
  | astNode (e : AstExpr)
  | other (reprOf : Option String)

/-- The embedded AST expression nodes: constants (with the ellipsis
constant as its own case, since `_colorize_ast_constant` treats the `...`
value specially), names, attribute accesses, calls, and keyword
arguments. -/
inductive AstExpr where
  | constant (v : PyVal)
  | ellipsisLit
  | name (id : String)
  | attribute (value : AstExpr) (attr : String)
  | call (func : AstExpr) (args : List AstExpr) (keywords : List AstExpr)
  | keyword (arg : Option String) (value : AstExpr)
end

/-- The membership test `pyval in (False, True, None, NotImplemented)` at
the top of `_colorize`.  Python's `in` uses `==`, and `0 == False`,
`1 == True`, so the integers 0 and 1 also pass this test. -/
def isPyConstant : PyVal → Bool
  | .bool _ => true
  | .pynone => true
  | .notImplemented => true
  | .int n => decide (n = 0) || decide (n = 1)
  | _ => false

/-- `str(pyval)` for the values that pass the constants test. -/
def pyConstStr : PyVal → String
  | .bool true => "True"
  | .bool false => "False"
  | .pynone => "None"
  | .notImplemented => "NotImplemented"
  | .int n => intStr n
  | _ => ""

/-- Modelled from the spec: `node2dottedname` lives in `pydoctor.astutils`,
which is not part of the provided sources.  Per the spec the callee is
resolved "via attribute-chain analysis" to a dotted name: a chain of
attribute accesses ending in a plain name yields the joined part list. -/
def node2dottedname : AstExpr → Option (List String)
  | .name id => some [id]
  | .attribute v a =>
    match node2dottedname v with
    | some parts => some (parts ++ [a])
    | none => none
  | _ => none

/-- The attribute-chain walk of `_colorize_ast_attribute`: collect `attr`
parts while the value is an attribute access; succeed only when the chain
terminates in a plain name. -/
def attrParts : AstExpr → List String → Option (List String)
  | .attribute v a, acc => attrParts v (a :: acc)
  | .name id, acc => some (id :: acc)
  | _, _ => none

/-- `PyvalColorizer._is_ast_constant`. -/
def isAstConstant : AstExpr → Bool
  | .constant _ => true
  | .ellipsisLit => true
  | _ => false

/-- `PyvalColorizer._get_ast_constant_val`, as an `Option`: `none` stands
for the `Ellipsis` value (and for non-constant nodes). -/
def astConstantVal : AstExpr → Option PyVal
  | .constant v => some v
  | _ => none

/-- The bound arguments of a `re.compile(...)` call: `inspect.signature
(re.compile)` is `(pattern, flags=0)`, and `bind` does not apply defaults,
so each parameter is either bound to an argument expression or absent. -/
structure BoundArgs where
  pattern : Option AstExpr
  flags : Option AstExpr

/-- Positional binding against `(pattern, flags=0)`: too many positional
arguments is a `TypeError`. -/
def posBind : List AstExpr → Except Unit BoundArgs
  | [] => .ok ⟨none, none⟩
  | [p] => .ok ⟨some p, none⟩
  | [p, f] => .ok ⟨some p, some f⟩
  | _ => .error ()

/-- Keyword binding against `(pattern, flags=0)`: a repeated or unknown
keyword, or a `**` splat, is a `TypeError`. -/
def applyKws : BoundArgs → List AstExpr → Except Unit BoundArgs
  | b, [] => .ok b
  | b, k :: rest =>
    match k with
    | .keyword (some nm) v =>
      if nm = "pattern" then
        if b.pattern.isSome then .error () else applyKws { b with pattern := some v } rest
      else if nm = "flags" then
        if b.flags.isSome then .error () else applyKws { b with flags := some v } rest
      else .error ()
    | _ => .error ()

/-- Modelled from the spec: `bind_args` lives in `pydoctor.astutils`, which
is not part of the provided sources.  Per the spec the call's arguments are
bound against the declared signature of `re.compile`; `inspect`'s `bind`
raises `TypeError` when binding fails or the required `pattern` parameter
is missing. -/
def bindReCompile (args kws : List AstExpr) : Except Unit BoundArgs :=
  match posBind args with
  | .error _ => .error ()
  | .ok b =>
    match applyKws b kws with
    | .error _ => .error ()
    | .ok b2 => if b2.pattern.isNone then .error () else .ok b2

theorem applyKws_flags (kws : List AstExpr) :
    ∀ (b b2 : BoundArgs), applyKws b kws = Except.ok b2 →
      b2.flags = b.flags ∨
        ∃ fl, b2.flags = some fl ∧ AstExpr.keyword (some "flags") fl ∈ kws := by
  induction kws with
  | nil =>
    intro b b2 h
    simp [applyKws] at h
    subst h
    exact Or.inl rfl
  | cons k rest ih =>
    intro b b2 h
    rcases k with v | _ | id | ⟨v, a⟩ | ⟨f, as, ks⟩ | ⟨arg, v⟩
    · simp [applyKws] at h
    · simp [applyKws] at h
    · simp [applyKws] at h
    · simp [applyKws] at h
    · simp [applyKws] at h
    · rcases arg with _ | nm
      · simp [applyKws] at h
      · simp only [applyKws] at h
        by_cases hp : nm = "pattern"
        · subst hp
          rw [if_pos rfl] at h
          split at h
          · simp at h
          · rcases ih _ _ h with h1 | ⟨fl, h1, h2⟩
            · exact Or.inl h1
            · exact Or.inr ⟨fl, h1, List.mem_cons_of_mem _ h2⟩
        · by_cases hf : nm = "flags"
          · subst hf
            rw [if_neg hp, if_pos rfl] at h
            split at h
            · simp at h
            · rcases ih _ _ h with h1 | ⟨fl, h1, h2⟩
              · exact Or.inr ⟨v, h1, List.mem_cons_self _ _⟩
              · exact Or.inr ⟨fl, h1, List.mem_cons_of_mem _ h2⟩
          · rw [if_neg hp, if_neg hf] at h
            simp at h

theorem astExpr_sizeOf_pos (e : AstExpr) : 1 ≤ sizeOf e := by
  cases e <;> simp_arith

theorem listAstExpr_sizeOf_pos (l : List AstExpr) : 1 ≤ sizeOf l := by
  cases l <;> simp_arith

theorem bindReCompile_flags_size (args kws : List AstExpr) (b : BoundArgs) (fl : AstExpr)
    (hb : bindReCompile args kws = Except.ok b) (hfl : b.flags = some fl) :
    sizeOf fl < 1 + sizeOf args + sizeOf kws := by
  unfold bindReCompile at hb
  split at hb
  · simp at hb
  · rename_i b0 hpos
    split at hb
    · simp at hb
    · rename_i b1 happ
      split at hb
      · simp at hb
      · have hbb : b1 = b := Except.ok.inj hb
        subst hbb
        rcases applyKws_flags kws b0 b1 happ with h1 | ⟨fl2, h1, h2⟩
        · -- flags came from the positional arguments
          rw [hfl] at h1
          rcases args with _ | ⟨p, args1⟩
          · simp [posBind] at hpos
            rw [← hpos] at h1
            simp at h1
          · rcases args1 with _ | ⟨f2, args2⟩
            · simp [posBind] at hpos
              rw [← hpos] at h1
              simp at h1
            · rcases args2 with _ | ⟨p3, ps⟩
              · simp [posBind] at hpos
                rw [← hpos] at h1
                have hffl : f2 = fl := by simpa using h1.symm
                subst hffl
                simp_arith
              · simp [posBind] at hpos
        · -- flags came from a keyword node in the keyword list
          rw [hfl] at h1
          have hfl2 : fl2 = fl := by simpa using h1.symm
          rw [hfl2] at h2
          have hk := List.sizeOf_lt_of_mem h2
          have hkk : sizeOf fl < sizeOf (AstExpr.keyword (some "flags") fl) := by
            simp_arith
          omega

/-- Modelled from the spec: `astor.to_source`, the external generic
expression-to-source converter used by `_colorize_ast_generic`, is not part
of this repository; the spec treats it as an injected capability that
unparses a node back to source text and may itself fail (`none`). -/
def astorGo : AstExpr → String
  | .constant (.bool true) => "True"
  | .constant (.bool false) => "False"
  | .constant .pynone => "None"
  | .constant .notImplemented => "NotImplemented"
  | .constant (.int n) => intStr n
  | .constant (.str s) => "'" ++ s ++ "'"
  | .constant _ => "..."
  | .ellipsisLit => "..."
  | .name id => id
  | .attribute v a => astorGo v ++ "." ++ a
  | .call f args kws =>
    astorGo f ++ "(" ++
      String.intercalate ", "
        (args.attach.map (fun x => astorGo x.1) ++ kws.attach.map (fun x => astorGo x.1))
      ++ ")"
  | .keyword (some a) v => a ++ "=" ++ astorGo v
  | .keyword none v => "**" ++ astorGo v
decreasing_by
  all_goals simp_wf
  all_goals try simp_arith
  all_goals (have hx := List.sizeOf_lt_of_mem x.2; simp_arith at hx ⊢; omega)

/-- Modelled from the spec (see `astorGo`). -/
def astorToSource (e : AstExpr) : Option String := some (astorGo e)

/-- Structural elements of a parsed regular-expression pattern, as produced
by the host parser (`sre_parse`): literal code points, the any-character
element, alternation branches (whose first component is always `None` in
practice), and numbered/unnumbered groups.  Group flags are not consulted
by the renderer and are omitted. -/
inductive RegexElt where
  | literal (n : Nat)
  | anyChar
  | branch (arg : Option Nat) (alts : List (List RegexElt))
  | subpattern (groupNum : Option Nat) (inner : List RegexElt)

/-- The metacharacters rejected by the modelled parser subset. -/
def sreRejected : List Char :=
  ['*', '+', '?', '[', ']', '\x7b', '\x7d', '\\', '^', '$']

mutual
/-- Modelled from the spec: the host regular-expression parser
(`sre_parse.parse`) is external to the repository; per the spec an
equivalent hand-written parser covering the same grammar subset may stand
in.  `parseAlts` parses an alternation (stopping at `)` or at the end of
input), returning the alternatives, the unconsumed input, and the next
group number. -/
def parseAlts : Nat → List Char → Nat → Except Unit (List (List RegexElt) × List Char × Nat)
  | 0, _, _ => .error ()
  | fuel + 1, cs, gn =>
    match parseSeq fuel cs gn with
    | .error _ => .error ()
    | .ok (seq, rest, gn1) =>
      match rest with
      | '|' :: rest2 =>
        match parseAlts fuel rest2 gn1 with
        | .error _ => .error ()
        | .ok (alts, rest3, gn2) => .ok (seq :: alts, rest3, gn2)
      | _ => .ok ([seq], rest, gn1)

/-- Modelled from the spec (see `parseAlts`): parse a concatenation of
atoms, stopping at `|`, `)` or the end of input.  Atoms are literal
characters, `.`, and parenthesised (numbered) groups; an unterminated group
or a rejected metacharacter is a parse error (`re.error`). -/
def parseSeq : Nat → List Char → Nat → Except Unit (List RegexElt × List Char × Nat)
  | 0, _, _ => .error ()
  | fuel + 1, cs, gn =>
    match cs with
    | [] => .ok ([], [], gn)
    | c :: rest =>
      if c = '|' ∨ c = ')' then .ok ([], cs, gn)
      else if c = '(' then
        match parseAlts fuel rest (gn + 1) with
        | .error _ => .error ()
        | .ok (alts, rest2, gn2) =>
          match rest2 with
          | ')' :: rest3 =>
            let inner : List RegexElt :=
              match alts with
              | [single] => single
              | _ => [RegexElt.branch none alts]
            match parseSeq fuel rest3 gn2 with
            | .error _ => .error ()
            | .ok (tail, rest4, gn3) =>
              .ok (RegexElt.subpattern (some gn) inner :: tail, rest4, gn3)
          | _ => .error ()
      else if c = '.' then
        match parseSeq fuel rest gn with
        | .error _ => .error ()
        | .ok (tail, rest2, gn2) => .ok (RegexElt.anyChar :: tail, rest2, gn2)
      else if c ∈ sreRejected then .error ()
      else
        match parseSeq fuel rest gn with
        | .error _ => .error ()
        | .ok (tail, rest2, gn2) => .ok (RegexElt.literal c.toNat :: tail, rest2, gn2)
end

/-- Modelled from the spec (see `parseAlts`): `sre_parse.parse` on a whole
pattern string.  A single alternative yields its element sequence, several
yield one branch element, matching the host parser's output shape. -/
def sreParse (s : String) : Except Unit (List RegexElt) :=
  match parseAlts (2 * s.length + 4) s.data 1 with
  | .error _ => .error ()
  | .ok (alts, rest, _) =>
    match rest with
    | [] =>
      .ok (match alts with
           | [single] => single
           | _ => [RegexElt.branch none alts])
    | _ => .error ()

/-- The characters escaped with a backslash by the LITERAL case of
`_colorize_re_tree` (`'.^$\*+?{}[]|()\''`). -/
def reEscaped : List Char :=
  ['.', '^', '$', '\\', '*', '+', '?', '\x7b', '\x7d', '[', ']', '|', '(', ')', '\'']

/-- The text emitted for a LITERAL regex element by `_colorize_re_tree`:
backslash-escape the regex metacharacters and the quote, use the named
escapes for tab/return/newline/formfeed/vertical-tab, and escalate other
non-printable or non-ASCII code points to `\xHH`/`\uHHHH`/`\UHHHHHHHH`. -/
def reLiteralStr (n : Nat) : String :=
  let c := Char.ofNat n
  if c ∈ reEscaped then String.mk ['\\', c]
  else if c = '\t' then "\\t"
  else if c = '\r' then "\\r"
  else if c = '\n' then "\\n"
  else if c = '\x0c' then "\\f"
  else if c = '\x0b' then "\\v"
  else if 0xffff < n then "\\U" ++ hex8 n
  else if 0xff < n then "\\u" ++ hex4 n
  else if n < 32 ∨ 127 ≤ n then "\\x" ++ hex2 n
  else String.mk [c]

/-- Group-number to group-name table (the inversion of
`tree.state.groupdict` computed by `_colorize_re_pattern`). -/
def lookupGroup (groups : List (Nat × String)) (n : Nat) : Option String :=
  (groups.find? (fun p => p.1 = n)).map (·.2)

mutual
/-- `PyvalColorizer._colorize_re_tree`: render an element sequence,
wrapping it in parentheses when it has more than one element and the caller
did not pass `noparen`. -/
def colorizeReTree (cfg : Cfg) (groups : List (Nat × String)) (tree : List RegexElt)
    (noparen : Bool) (st : ColorizerState) : ColorizerState × Option PyErr :=
  seqE (if 1 < tree.length ∧ noparen = false
        then output cfg "(" RE_GROUP_TAG false st else (st, none)) fun st1 =>
  seqE (colorizeReElts cfg groups tree st1) fun st2 =>
  if 1 < tree.length ∧ noparen = false
  then output cfg ")" RE_GROUP_TAG false st2 else (st2, none)
termination_by (sizeOf tree, 1)
decreasing_by
  all_goals simp_wf
  all_goals first
    | (apply Prod.Lex.right; omega)
    | (apply Prod.Lex.left; simp_arith)

/-- The `for elt in tree` loop of `_colorize_re_tree`. -/
def colorizeReElts (cfg : Cfg) (groups : List (Nat × String)) :
    List RegexElt → ColorizerState → ColorizerState × Option PyErr
  | [], st => (st, none)
  | elt :: rest, st =>
    seqE (colorizeReElt cfg groups elt st) fun st1 =>
    colorizeReElts cfg groups rest st1
termination_by l st => (sizeOf l, 0)
decreasing_by
  all_goals simp_wf
  all_goals first
    | (apply Prod.Lex.right; omega)
    | (apply Prod.Lex.left; simp_arith)

/-- One element case of `_colorize_re_tree`: LITERAL and ANY emit their
text; BRANCH checks that its first argument is `None` (else `ValueError`)
and renders the alternatives joined by `|`; SUBPATTERN emits `(?:` for an
unnumbered group, `(?P<name>` for a group number present in the group
table, plain `(` for any other number, renders the contents with `noparen`,
and closes with `)`. -/
def colorizeReElt (cfg : Cfg) (groups : List (Nat × String)) :
    RegexElt → ColorizerState → ColorizerState × Option PyErr
  | .literal n, st => output cfg (reLiteralStr n) RE_CHAR_TAG false st
  | .anyChar, st => output cfg "." RE_CHAR_TAG false st
  | .branch arg alts, st =>
    match arg with
    | some _ => (st, some PyErr.valueError)
    | none => colorizeReAlts cfg groups alts true st
  | .subpattern g inner, st =>
    seqE (match g with
          | none => output cfg "(?:" RE_GROUP_TAG false st
          | some n =>
            match lookupGroup groups n with
            | some nm =>
              seqE (output cfg "(?P<" RE_GROUP_TAG false st) fun st1 =>
              seqE (output cfg nm RE_REF_TAG false st1) fun st2 =>
              output cfg ">" RE_GROUP_TAG false st2
            | none => output cfg "(" RE_GROUP_TAG false st) fun st3 =>
    seqE (colorizeReTree cfg groups inner true st3) fun st4 =>
    output cfg ")" RE_GROUP_TAG false st4
termination_by elt st => (sizeOf elt, 2)
decreasing_by
  all_goals simp_wf
  all_goals first
    | (apply Prod.Lex.right; omega)
    | (apply Prod.Lex.left; simp_arith)

/-- The BRANCH loop of `_colorize_re_tree`: alternatives joined by `|`,
each rendered with `noparen`. -/
def colorizeReAlts (cfg : Cfg) (groups : List (Nat × String)) :
    List (List RegexElt) → Bool → ColorizerState → ColorizerState × Option PyErr
  | [], _, st => (st, none)
  | item :: rest, first, st =>
    seqE (if first then (st, none) else output cfg "|" RE_OP_TAG false st) fun st1 =>
    seqE (colorizeReTree cfg groups item true st1) fun st2 =>
    colorizeReAlts cfg groups rest false st2
termination_by alts first st => (sizeOf alts, 0)
decreasing_by
  all_goals simp_wf
  all_goals first
    | (apply Prod.Lex.right; omega)
    | (apply Prod.Lex.left; simp_arith)
end

/-- `PyvalColorizer._colorize_re_pattern` for the AST path: the constant
pattern value must be a text string (anything else makes the host parser
raise `TypeError`); parse it and render the element tree.  The modelled
parser produces no named groups, so the group table is empty. -/
def colorizeRePattern (cfg : Cfg) (pat : Option PyVal) (st : ColorizerState) :
    ColorizerState × Option PyErr :=
  match pat with
  | some (.str s) =>
    match sreParse s with
    | .error _ => (st, some PyErr.reError)
    | .ok tree => colorizeReTree cfg [] tree true st
  | _ => (st, some PyErr.typeError)

/-- `PyvalColorizer._colorize_str` for text strings (empty prefix,
`_str_escape` as the escape function): choose the triple quote only when
the value contains a newline and breaking is allowed, split into lines only
when breaking is allowed, and emit quote, escaped line bodies joined by
newlines, quote. -/
def colorizeStrLines (cfg : Cfg) :
    List (List Char) → Bool → ColorizerState → ColorizerState × Option PyErr
  | [], _, st => (st, none)
  | line :: rest, first, st =>
    seqE (if first then (st, none) else output cfg "\n" none false st) fun st1 =>
    seqE (output cfg (strEscape (String.mk line)) STRING_TAG false st1) fun st2 =>
    colorizeStrLines cfg rest false st2

/-- See `colorizeStrLines`. -/
def colorizeStr (cfg : Cfg) (s : String) (st : ColorizerState) :
    ColorizerState × Option PyErr :=
  let quote : String := if s.data.contains '\n' && st.linebreakok then "'''" else "'"
  let lines := if st.linebreakok then splitNlList s.data else [s.data]
  seqE (output cfg ("" ++ quote) QUOTE_TAG false st) fun st1 =>
  seqE (colorizeStrLines cfg lines true st1) fun st2 =>
  output cfg quote QUOTE_TAG false st2

/-- The generic-unparse fallback `_colorize_ast_generic`: unparse via the
external converter; emit the unknown marker when the converter fails. -/
def colorizeAstGeneric (cfg : Cfg) (e : AstExpr) (st : ColorizerState) :
    ColorizerState × Option PyErr :=
  match astorToSource e with
  | some src => output cfg src none false st
  | none => ({ st with result := st.result ++ [UNKNOWN_REPR] }, none)

mutual
/-- `PyvalColorizer._colorize`: bump the score, render the linked
singleton constants (note that Python's `in` makes the integers 0 and 1
take this branch), then dispatch on the value's category. -/
def colorizeVal (cfg : Cfg) (v : PyVal) (st0 : ColorizerState) :
    ColorizerState × Option PyErr :=
  let st := { st0 with score := st0.score + 1 }
  if isPyConstant v then
    output cfg (pyConstStr v) CONST_TAG true st
  else
    match v with
    | .bool b => output cfg (pyConstStr (.bool b)) CONST_TAG true st
    | .pynone => output cfg "None" CONST_TAG true st
    | .notImplemented => output cfg "NotImplemented" CONST_TAG true st
    | .int n => output cfg (intStr n) NUMBER_TAG false st
    | .str s => colorizeStr cfg s st
    | .tuple xs => multiline (fun stm => colorizeIter cfg xs (some "(") (some ")") stm) st
    | .pyset xs => multiline (fun stm => colorizeIter cfg xs (some "set([") (some "])") stm) st
    | .frozenset xs => multiline (fun stm => colorizeIter cfg xs (some "frozenset([") (some "])") stm) st
    | .dict items => multiline (fun stm => colorizeDict cfg items "\x7b" "\x7d" stm) st
    | .list xs => multiline (fun stm => colorizeIter cfg xs (some "[") (some "]") stm) st
    | .astNode e => colorizeAst cfg e st
    | .other reprOf =>
      match reprOf with
      | none =>
        -- `repr(pyval)` raised: unknown marker, heavy penalty
        ({ st with score := st.score - 100, result := st.result ++ [UNKNOWN_REPR] }, none)
      | some s =>
        match genericObjectDescr s with
        | some descr =>
          -- GENERIC_OBJECT_RE matched; its groupdict always contains 'descr'
          output cfg ("<" ++ descr ++ ">") none false { st with score := st.score - 5 }
        | none => output cfg s none false st
termination_by (sizeOf v, 3)
decreasing_by
  all_goals simp_wf
  all_goals first
    | (apply Prod.Lex.right; omega)
    | (apply Prod.Lex.left; simp_arith; done)
    | (apply Prod.Lex.left
       have hfs := bindReCompile_flags_size args kws bargs astFlags hbind hfl
       have h3 := astExpr_sizeOf_pos f
       omega)
    | (apply Prod.Lex.left
       simp_arith
       have h1 := listAstExpr_sizeOf_pos args
       have h2 := listAstExpr_sizeOf_pos kws
       have h3 := astExpr_sizeOf_pos f
       omega)

/-- `PyvalColorizer._colorize_iter` (runtime-value elements). -/
def colorizeIter (cfg : Cfg) (xs : List PyVal) (pre suf : Option String)
    (st : ColorizerState) : ColorizerState × Option PyErr :=
  seqE (match pre with
        | some p => output cfg p GROUP_TAG false st
        | none => (st, none)) fun st1 =>
  seqE (colorizeIterGo cfg xs st1.charpos true st1) fun st2 =>
  match suf with
  | some p => output cfg p GROUP_TAG false st2
  | none => (st2, none)
termination_by (sizeOf xs, 2)
decreasing_by
  all_goals simp_wf
  all_goals first
    | (apply Prod.Lex.right; omega)
    | (apply Prod.Lex.left; simp_arith; done)
    | (apply Prod.Lex.left
       have hfs := bindReCompile_flags_size args kws bargs astFlags hbind hfl
       have h3 := astExpr_sizeOf_pos f
       omega)
    | (apply Prod.Lex.left
       simp_arith
       have h1 := listAstExpr_sizeOf_pos args
       have h2 := listAstExpr_sizeOf_pos kws
       have h3 := astExpr_sizeOf_pos f
       omega)

/-- The element loop of `_colorize_iter`: a comma separator before every
element but the first, a word-break opportunity before each element, then
the recursive `_colorize`. -/
def colorizeIterGo (cfg : Cfg) (xs : List PyVal) (indent : Nat) (first : Bool)
    (st : ColorizerState) : ColorizerState × Option PyErr :=
  match xs with
  | [] => (st, none)
  | x :: rest =>
    seqE (if first then (st, none) else insertComma cfg indent st) fun st1 =>
    seqE (colorizeVal cfg x
            { st1 with result := st1.result ++ [WORD_BREAK_OPPORTUNITY] }) fun st2 =>
    colorizeIterGo cfg rest indent false st2
termination_by (sizeOf xs, 1)
decreasing_by
  all_goals simp_wf
  all_goals first
    | (apply Prod.Lex.right; omega)
    | (apply Prod.Lex.left; simp_arith; done)
    | (apply Prod.Lex.left
       have hfs := bindReCompile_flags_size args kws bargs astFlags hbind hfl
       have h3 := astExpr_sizeOf_pos f
       omega)
    | (apply Prod.Lex.left
       simp_arith
       have h1 := listAstExpr_sizeOf_pos args
       have h2 := listAstExpr_sizeOf_pos kws
       have h3 := astExpr_sizeOf_pos f
       omega)

/-- `PyvalColorizer._colorize_dict`. -/
def colorizeDict (cfg : Cfg) (items : List (PyVal × PyVal)) (pre suf : String)
    (st : ColorizerState) : ColorizerState × Option PyErr :=
  seqE (output cfg pre GROUP_TAG false st) fun st1 =>
  seqE (colorizeDictGo cfg items st1.charpos true st1) fun st2 =>
  output cfg suf GROUP_TAG false st2
termination_by (sizeOf items, 2)
decreasing_by
  all_goals simp_wf
  all_goals first
    | (apply Prod.Lex.right; omega)
    | (apply Prod.Lex.left; simp_arith; done)
    | (apply Prod.Lex.left
       have hfs := bindReCompile_flags_size args kws bargs astFlags hbind hfl
       have h3 := astExpr_sizeOf_pos f
       omega)
    | (apply Prod.Lex.left
       simp_arith
       have h1 := listAstExpr_sizeOf_pos args
       have h2 := listAstExpr_sizeOf_pos kws
       have h3 := astExpr_sizeOf_pos f
       omega)

/-- The pair loop of `_colorize_dict`: separator, word break, key, `: `,
value. -/
def colorizeDictGo (cfg : Cfg) (items : List (PyVal × PyVal)) (indent : Nat)
    (first : Bool) (st : ColorizerState) : ColorizerState × Option PyErr :=
  match items with
  | [] => (st, none)
  | (key, val) :: rest =>
    seqE (if first then (st, none)
          else if st.linebreakok then
            seqE (output cfg "," COMMA_TAG false st) fun sta =>
              output cfg ("\n" ++ String.mk (List.replicate indent ' ')) none false sta
          else output cfg ", " COMMA_TAG false st) fun st1 =>
    seqE (colorizeVal cfg key
            { st1 with result := st1.result ++ [WORD_BREAK_OPPORTUNITY] }) fun st2 =>
    seqE (output cfg ": " COLON_TAG false st2) fun st3 =>
    seqE (colorizeVal cfg val st3) fun st4 =>
    colorizeDictGo cfg rest indent false st4
termination_by (sizeOf items, 1)
decreasing_by
  all_goals simp_wf
  all_goals first
    | (apply Prod.Lex.right; omega)
    | (apply Prod.Lex.left; simp_arith; done)
    | (apply Prod.Lex.left
       have hfs := bindReCompile_flags_size args kws bargs astFlags hbind hfl
       have h3 := astExpr_sizeOf_pos f
       omega)
    | (apply Prod.Lex.left
       simp_arith
       have h1 := listAstExpr_sizeOf_pos args
       have h2 := listAstExpr_sizeOf_pos kws
       have h3 := astExpr_sizeOf_pos f
       omega)

/-- `PyvalColorizer._colorize_ast`: dispatch on the node category
(restricted here to the embedded node universe). -/
def colorizeAst (cfg : Cfg) (e : AstExpr) (st : ColorizerState) :
    ColorizerState × Option PyErr :=
  match e with
  | .constant v => colorizeVal cfg v st
  | .ellipsisLit => output cfg "..." ELLIPSIS_TAG false st
  | .name id => output cfg id LINK_TAG true st
  | .attribute v a =>
    match attrParts (.attribute v a) [] with
    | some parts => output cfg (String.intercalate "." parts) LINK_TAG true st
    | none => colorizeAstGeneric cfg (.attribute v a) st
  | .call f args kws => colorizeAstCall cfg f args kws st
  | .keyword arg v =>
    seqE (match arg with
          | some a =>
            seqE (output cfg a none false st) fun st1 => output cfg "=" none false st1
          | none => output cfg "**" none false st) fun st2 =>
    colorizeAst cfg v st2
termination_by (sizeOf e, 3)
decreasing_by
  all_goals simp_wf
  all_goals first
    | (apply Prod.Lex.right; omega)
    | (apply Prod.Lex.left; simp_arith; done)
    | (apply Prod.Lex.left
       have hfs := bindReCompile_flags_size args kws bargs astFlags hbind hfl
       have h3 := astExpr_sizeOf_pos f
       omega)
    | (apply Prod.Lex.left
       simp_arith
       have h1 := listAstExpr_sizeOf_pos args
       have h2 := listAstExpr_sizeOf_pos kws
       have h3 := astExpr_sizeOf_pos f
       omega)

/-- The loop of `_colorize_iter` over AST elements (each element goes
through `_colorize`, which for an AST node bumps the score and dispatches
to `_colorize_ast`). -/
def colorizeAstIterGo (cfg : Cfg) (es : List AstExpr) (indent : Nat) (first : Bool)
    (st : ColorizerState) : ColorizerState × Option PyErr :=
  match es with
  | [] => (st, none)
  | e :: rest =>
    seqE (if first then (st, none) else insertComma cfg indent st) fun st1 =>
    seqE (colorizeAst cfg e
            { st1 with result := st1.result ++ [WORD_BREAK_OPPORTUNITY],
                       score := st1.score + 1 }) fun st2 =>
    colorizeAstIterGo cfg rest indent false st2
termination_by (sizeOf es, 1)
decreasing_by
  all_goals simp_wf
  all_goals first
    | (apply Prod.Lex.right; omega)
    | (apply Prod.Lex.left; simp_arith; done)
    | (apply Prod.Lex.left
       have hfs := bindReCompile_flags_size args kws bargs astFlags hbind hfl
       have h3 := astExpr_sizeOf_pos f
       omega)
    | (apply Prod.Lex.left
       simp_arith
       have h1 := listAstExpr_sizeOf_pos args
       have h2 := listAstExpr_sizeOf_pos kws
       have h3 := astExpr_sizeOf_pos f
       omega)

/-- `_colorize_iter` applied to AST elements with no prefix or suffix, as
done by `_colorize_ast_call_generic`. -/
def colorizeAstIter (cfg : Cfg) (es : List AstExpr) (st : ColorizerState) :
    ColorizerState × Option PyErr :=
  colorizeAstIterGo cfg es st.charpos true st
termination_by (sizeOf es, 2)
decreasing_by
  all_goals simp_wf
  all_goals first
    | (apply Prod.Lex.right; omega)
    | (apply Prod.Lex.left; simp_arith; done)
    | (apply Prod.Lex.left
       have hfs := bindReCompile_flags_size args kws bargs astFlags hbind hfl
       have h3 := astExpr_sizeOf_pos f
       omega)
    | (apply Prod.Lex.left
       simp_arith
       have h1 := listAstExpr_sizeOf_pos args
       have h2 := listAstExpr_sizeOf_pos kws
       have h3 := astExpr_sizeOf_pos f
       omega)

/-- `PyvalColorizer._colorize_ast_call`: the `re.compile` special case.
After a successful argument binding, a `ValueError` or `re.error` from the
regex rendering is caught and the snapshot restored — but the source then
invokes `self._colorize_ast_call_generic(args, node, state)` with one
positional argument too many, so Python raises `TypeError` at that call
instead of rendering the generic fallback. -/
def colorizeAstCall (cfg : Cfg) (f : AstExpr) (args kws : List AstExpr)
    (st : ColorizerState) : ColorizerState × Option PyErr :=
  if node2dottedname f = some ["re", "compile"] then
    match bindReCompile args kws with
    | .error _ => colorizeAstCallGeneric cfg f args kws st
    | .ok _ =>
      let mark := markOf st
      match colorizeAstRe cfg f args kws st with
      | (st1, none) => (st1, none)
      | (st1, some PyErr.valueError) => (restoreSt mark st1, some PyErr.typeError)
      | (st1, some PyErr.reError) => (restoreSt mark st1, some PyErr.typeError)
      | (st1, some e) => (st1, some e)
  else colorizeAstCallGeneric cfg f args kws st
termination_by (sizeOf f + sizeOf args + sizeOf kws, 6)
decreasing_by
  all_goals simp_wf
  all_goals first
    | (apply Prod.Lex.right; omega)
    | (apply Prod.Lex.left; simp_arith; done)
    | (apply Prod.Lex.left
       have hfs := bindReCompile_flags_size args kws bargs astFlags hbind hfl
       have h3 := astExpr_sizeOf_pos f
       omega)
    | (apply Prod.Lex.left
       simp_arith
       have h1 := listAstExpr_sizeOf_pos args
       have h2 := listAstExpr_sizeOf_pos kws
       have h3 := astExpr_sizeOf_pos f
       omega)

/-- `PyvalColorizer._colorize_ast_call_generic`: callee, `(`, positional
arguments, a comma when both argument kinds are present, keyword
arguments, `)`. -/
def colorizeAstCallGeneric (cfg : Cfg) (f : AstExpr) (args kws : List AstExpr)
    (st : ColorizerState) : ColorizerState × Option PyErr :=
  seqE (colorizeAst cfg f st) fun st1 =>
  seqE (output cfg "(" GROUP_TAG false st1) fun st2 =>
  seqE (multiline (fun stm => colorizeAstIter cfg args stm) st2) fun st3 =>
  seqE (if kws.isEmpty then (st3, none)
        else
          seqE (if args.isEmpty then (st3, none) else insertComma cfg st2.charpos st3)
            fun st4 =>
          multiline (fun stm => colorizeAstIter cfg kws stm) st4) fun st5 =>
  output cfg ")" GROUP_TAG false st5
termination_by (sizeOf f + sizeOf args + sizeOf kws, 4)
decreasing_by
  all_goals simp_wf
  all_goals first
    | (apply Prod.Lex.right; omega)
    | (apply Prod.Lex.left; simp_arith; done)
    | (apply Prod.Lex.left
       have hfs := bindReCompile_flags_size args kws bargs astFlags hbind hfl
       have h3 := astExpr_sizeOf_pos f
       omega)
    | (apply Prod.Lex.left
       simp_arith
       have h1 := listAstExpr_sizeOf_pos args
       have h2 := listAstExpr_sizeOf_pos kws
       have h3 := astExpr_sizeOf_pos f
       omega)

/-- `PyvalColorizer._colorize_ast_re`: when the bound pattern is a
constant node, emit the callee, `(`, `r`, a quote, the rendered pattern,
a quote, the optionally bound flags expression after a comma, and `)`;
otherwise fall back to generic call rendering.  (The binding is recomputed
here from the call pieces; it is the same deterministic binding the caller
already computed.) -/
def colorizeAstRe (cfg : Cfg) (f : AstExpr) (args kws : List AstExpr)
    (st : ColorizerState) : ColorizerState × Option PyErr :=
  match hbind : bindReCompile args kws with
  | .error _ => (st, some PyErr.typeError)
  | .ok bargs =>
    match bargs.pattern with
    | some astPattern =>
      if isAstConstant astPattern then
        seqE (colorizeAst cfg f st) fun st1 =>
        seqE (output cfg "(" GROUP_TAG false st1) fun st2 =>
        seqE (output cfg "r" none false st2) fun st3 =>
        seqE (output cfg "'" QUOTE_TAG false st3) fun st4 =>
        seqE (colorizeRePattern cfg (astConstantVal astPattern) st4) fun st5 =>
        seqE (output cfg "'" QUOTE_TAG false st5) fun st6 =>
        seqE (match hfl : bargs.flags with
              | some astFlags =>
                seqE (insertComma cfg st2.charpos st6) fun st7 =>
                  colorizeAst cfg astFlags st7
              | none => (st6, none)) fun st8 =>
        output cfg ")" GROUP_TAG false st8
      else colorizeAstCallGeneric cfg f args kws st
    | none => colorizeAstCallGeneric cfg f args kws st
termination_by (sizeOf f + sizeOf args + sizeOf kws, 5)
decreasing_by
  all_goals simp_wf
  all_goals first
    | (apply Prod.Lex.right; omega)
    | (apply Prod.Lex.left; simp_arith; done)
    | (apply Prod.Lex.left
       have hfs := bindReCompile_flags_size args kws bargs astFlags hbind hfl
       have h3 := astExpr_sizeOf_pos f
       omega)
    | (apply Prod.Lex.left
       simp_arith
       have h1 := listAstExpr_sizeOf_pos args
       have h2 := listAstExpr_sizeOf_pos kws
       have h3 := astExpr_sizeOf_pos f
       omega)
end

/-- `ColorizedPyvalRepr`: the final document plus score and completeness
flag. -/
structure ColorizedRepr where
  document : List Fragment
  score : Int
  isComplete : Bool
deriving DecidableEq, Repr

/-- The tail of `PyvalColorizer.colorize`: replace the whole result list
by the unknown marker when a minimum score is given and not reached, then
package the result. -/
def finishRepr (st : ColorizerState) (isComplete : Bool) (minScore : Option Int) :
    ColorizedRepr :=
  let res := match minScore with
             | some m => if st.score < m then [UNKNOWN_REPR] else st.result
             | none => st.result
  { document := res, score := st.score, isComplete := isComplete }

/-- The `except (_Maxlines, _Linebreak)` handler of `colorize`: with
breaks allowed, append a newline and the ellipsis; otherwise pop a
trailing line-wrap marker (`state.result[-1]` raises `IndexError` when the
result is empty), trim three characters, and append the ellipsis. -/
def topFallback (cfg : Cfg) (st : ColorizerState) (minScore : Option Int) :
    Except PyErr ColorizedRepr :=
  if cfg.linebreakok then
    .ok (finishRepr { st with result := st.result ++ [NEWLINE, ELLIPSIS] } false minScore)
  else
    match st.result.getLast? with
    | none => .error PyErr.indexError
    | some f =>
      let res1 := if f = LINEWRAP then st.result.dropLast else st.result
      .ok (finishRepr { st with result := trimResult 3 res1 ++ [ELLIPSIS] } false minScore)

/-- `PyvalColorizer.colorize`, the top-level entry operation. -/
def pyvalColorize (cfg : Cfg) (pyval : PyVal) (minScore : Option Int) :
    Except PyErr ColorizedRepr :=
  match colorizeVal cfg pyval (initState cfg) with
  | (st, none) => .ok (finishRepr st true minScore)
  | (st, some PyErr.maxlines) => topFallback cfg st minScore
  | (st, some PyErr.linebreak) => topFallback cfg st minScore
  | (st, some e) => .error e

/-- The configuration of the `colorize_pyval` entry point
(`linelen=80, maxlines=7, linebreakok=True`). -/
def defaultCfg : Cfg := { linelen := some 80, maxlines := 7, linebreakok := true }

/-- The configuration of the `colorize_inline_pyval` entry point
(`linelen=None, linebreakok=False`). -/
def inlineCfg : Cfg := { linelen := none, maxlines := 7, linebreakok := false }

/-- The callee node `re.compile` (an attribute access on the name `re`). -/
def reCallee : AstExpr := .attribute (.name "re") "compile"

/-- A `re.compile` call whose constant pattern `"("` binds against the
compile signature but does not parse as a regular expression. -/
def badReCall : AstExpr := .call reCallee [.constant (.str "(")] []

/-- The call node `re.compile(r"a|b")`, with no flags argument. -/
def abReCall : AstExpr := .call reCallee [.constant (.str "a|b")] []

/-- The fragments produced for `re.compile(r"a|b")`: linked callee, `(`,
the raw-string marker, quotes around the rendered pattern with its `|`
operator, and `)`. -/
def abReFragments : List Fragment :=
  [Fragment.link "re.compile", Fragment.text "(", Fragment.text "r",
   Fragment.inline "variable-quote" "'", Fragment.text "a",
   Fragment.inline "re-op" "|", Fragment.text "b",
   Fragment.inline "variable-quote" "'", Fragment.text ")"]

/-!  Position bookkeeping over emitted fragments. -/

/-- The column implied by a fragment list when every fragment's visible
text is counted, a newline fragment resetting the column to zero. -/
def impliedColClaim (fs : List Fragment) : Nat :=
  fs.foldl (fun col f =>
    match f with
    | Fragment.newline => 0
    | f => col + f.astext.length) 0

/-- Column update contributed by one fragment, the two marker fragments
(the line-wrap marker and the unknown marker) counting as zero-width. -/
def sinkColF (col : Nat) (f : Fragment) : Nat :=
  match f with
  | Fragment.newline => 0
  | Fragment.inline c s =>
    if c = "variable-linewrap" ∨ c = "variable-unknown" then col else col + s.length
  | f => col + f.astext.length

/-- Column implied by a fragment list, marker fragments zero-width. -/
def sinkCol (fs : List Fragment) : Nat := fs.foldl sinkColF 0

/-- Number of newline fragments in a fragment list. -/
def nlCount (fs : List Fragment) : Nat :=
  fs.foldl (fun n f => if f = Fragment.newline then n + 1 else n) 0

/-- The position invariant: the layout state's column and line number
match the position implied by the fragments emitted so far, marker
fragments counting as zero-width. -/
def PosInv (st : ColorizerState) : Prop :=
  st.charpos = sinkCol st.result ∧ st.lineno = 1 + nlCount st.result

/-!  General lemmas about the output sink and the colorization steps. -/

/-- Relation between a state and the state left behind by one colorization
step: the break flag is never switched on by a step, the result list only
grows, and when line breaks were disallowed no newline fragment was
appended. -/
def StepOk (st st' : ColorizerState) : Prop :=
  (st.linebreakok = false → st'.linebreakok = false) ∧
  ∃ t, st'.result = st.result ++ t ∧
    (st.linebreakok = false → Fragment.newline ∉ t)

theorem stepOk_refl (st : ColorizerState) : StepOk st st :=
  ⟨fun h => h, [], by simp, by simp⟩

theorem stepOk_trans {a b c : ColorizerState} (h1 : StepOk a b) (h2 : StepOk b c) :
    StepOk a c := by
  obtain ⟨hf1, t1, ht1, hn1⟩ := h1
  obtain ⟨hf2, t2, ht2, hn2⟩ := h2
  refine ⟨fun h => hf2 (hf1 h), t1 ++ t2, by rw [ht2, ht1, List.append_assoc], ?_⟩
  intro h
  have hn1h := hn1 h
  have hn2h := hn2 (hf1 h)
  simp only [List.mem_append]
  rintro (hc | hc)
  · exact hn1h hc
  · exact hn2h hc

theorem stepOk_of_fields {st st' : ColorizerState}
    (hflag : st'.linebreakok = st.linebreakok)
    (t : List Fragment) (hres : st'.result = st.result ++ t)
    (hnl : Fragment.newline ∉ t) : StepOk st st' :=
  ⟨fun h => by rw [hflag, h], t, hres, fun _ => hnl⟩

theorem stepOk_seqE {st : ColorizerState} {m : ColorizerState × Option PyErr}
    {f : ColorizerState → ColorizerState × Option PyErr}
    (h1 : StepOk st m.1) (h2 : ∀ st1, StepOk st1 (f st1).1) :
    StepOk st (seqE m f).1 := by
  rcases m with ⟨st1, e⟩
  cases e with
  | none => exact stepOk_trans h1 (h2 st1)
  | some e => exact h1

theorem mkFragment_ne_newline (css : Option String) (link : Bool) (seg : List Char) :
    mkFragment css link seg ≠ Fragment.newline := by
  unfold mkFragment
  split
  · simp
  · split <;> simp

theorem outputGo_stepOk (cfg : Cfg) (css : Option String) (link : Bool)
    (segs : List (List Char)) (first : Bool) (st : ColorizerState) :
    StepOk st (outputGo cfg css link segs first st).1 := by
  induction segs, first, st using outputGo.induct cfg css link with
  | case1 x st =>
    rw [outputGo]
    exact stepOk_refl st
  | case2 seg rest st h =>
    rw [outputGo, if_pos h]
    exact stepOk_refl st
  | case3 seg rest st h1 h2 =>
    rw [outputGo, if_neg h1, if_pos h2]
    exact stepOk_refl st
  | case4 seg rest st h1 h2 ih =>
    rw [outputGo, if_neg h1, if_neg h2]
    refine stepOk_trans ?_ ih
    exact ⟨fun h => h, [NEWLINE], rfl, fun h => absurd h h2⟩
  | case5 seg rest st h ih =>
    rw [outputGo, if_pos h]
    refine stepOk_trans ?_ ih
    exact stepOk_of_fields rfl [mkFragment css link seg] rfl
      (by simpa using (mkFragment_ne_newline css link seg).symm)
  | case6 seg rest st h ih =>
    rw [outputGo, if_neg h]
    refine stepOk_trans ?_ ih
    refine stepOk_of_fields rfl
      [mkFragment css false (pyTake seg ((cfg.linelen.getD 0 : Int) - (st.charpos : Int))),
       LINEWRAP] rfl ?_
    simp only [List.mem_cons, List.not_mem_nil]
    rintro (hc | hc | hc)
    · exact (mkFragment_ne_newline _ _ _) hc.symm
    · exact absurd hc.symm (by simp [LINEWRAP])
    · exact hc

theorem output_stepOk (cfg : Cfg) (s : String) (css : Option String) (link : Bool)
    (st : ColorizerState) : StepOk st (output cfg s css link st).1 :=
  outputGo_stepOk cfg css link (splitNlList s.data) true st

theorem insertComma_stepOk (cfg : Cfg) (indent : Nat) (st : ColorizerState) :
    StepOk st (insertComma cfg indent st).1 := by
  unfold insertComma
  split
  · exact stepOk_seqE (output_stepOk _ _ _ _ _) (fun st1 => output_stepOk _ _ _ _ _)
  · exact output_stepOk _ _ _ _ _

/-- The restoration performed by `_multiline` when retrying: given that the
renderer only appended fragments, restoring the pre-attempt mark recovers
the saved fragment list and scalar fields exactly. -/
theorem restore_after_append (st st1 : ColorizerState) (t : List Fragment)
    (ht : st1.result = st.result ++ t) :
    restoreSt (markOf st) st1 =
      { st1 with result := st.result, charpos := st.charpos, lineno := st.lineno,
                 linebreakok := st.linebreakok, score := st.score } := by
  unfold restoreSt markOf
  rw [ht]
  simp [List.take_left]

theorem multiline_stepOk (f : ColorizerState → ColorizerState × Option PyErr)
    (hf : ∀ st, StepOk st (f st).1) (st : ColorizerState) :
    StepOk st (multiline f st).1 := by
  have h0 := hf { st with linebreakok := false }
  rcases hm : f { st with linebreakok := false } with ⟨st1, e⟩
  rw [hm] at h0
  obtain ⟨hf0, t0, ht0, hn0⟩ := h0
  have hgen : StepOk st st1 := ⟨fun _ => hf0 rfl, t0, ht0, fun _ => hn0 rfl⟩
  unfold multiline
  rw [hm]
  match e with
  | none => exact ⟨fun h => h, t0, ht0, fun _ => hn0 rfl⟩
  | some PyErr.linebreak =>
    dsimp only
    split
    · exact hgen
    · refine stepOk_trans (b := restoreSt (markOf st) st1) ?_ (hf _)
      rw [restore_after_append st st1 t0 ht0]
      exact ⟨fun h => h, [], by simp, by simp⟩
  | some PyErr.maxlines => exact hgen
  | some PyErr.typeError => exact hgen
  | some PyErr.valueError => exact hgen
  | some PyErr.reError => exact hgen
  | some PyErr.indexError => exact hgen

theorem colorizeStrLines_stepOk (cfg : Cfg) (lines : List (List Char)) :
    ∀ (first : Bool) (st : ColorizerState), StepOk st (colorizeStrLines cfg lines first st).1 := by
  induction lines with
  | nil => intro first st; rw [colorizeStrLines]; exact stepOk_refl st
  | cons line rest ih =>
    intro first st
    rw [colorizeStrLines]
    refine stepOk_seqE ?_ fun st1 =>
      stepOk_seqE (output_stepOk _ _ _ _ _) fun st2 => ih false st2
    cases first with
    | true => exact stepOk_refl st
    | false => exact output_stepOk _ _ _ _ _

theorem colorizeStr_stepOk (cfg : Cfg) (s : String) (st : ColorizerState) :
    StepOk st (colorizeStr cfg s st).1 := by
  unfold colorizeStr
  exact stepOk_seqE (output_stepOk _ _ _ _ _) fun st1 =>
    stepOk_seqE (colorizeStrLines_stepOk _ _ _ _) fun st2 => output_stepOk _ _ _ _ _

theorem colorizeAstGeneric_stepOk (cfg : Cfg) (e : AstExpr) (st : ColorizerState) :
    StepOk st (colorizeAstGeneric cfg e st).1 := by
  unfold colorizeAstGeneric
  split
  · exact output_stepOk _ _ _ _ _
  · exact stepOk_of_fields rfl [UNKNOWN_REPR] rfl (by simp [UNKNOWN_REPR])

theorem colorizeReTree_stepOk (cfg : Cfg) (groups : List (Nat × String))
    (tree : List RegexElt) (noparen : Bool) (st : ColorizerState) :
    StepOk st (colorizeReTree cfg groups tree noparen st).1 := by
  refine colorizeReTree.induct cfg groups
    (fun tree noparen st => StepOk st (colorizeReTree cfg groups tree noparen st).1)
    (fun l st => StepOk st (colorizeReElts cfg groups l st).1)
    (fun elt st => StepOk st (colorizeReElt cfg groups elt st).1)
    (fun alts first st => StepOk st (colorizeReAlts cfg groups alts first st).1)
    ?_ ?_ ?_ ?_ ?_ ?_ ?_ ?_ ?_ ?_ tree noparen st
  · intro tree noparen st ih
    rw [colorizeReTree.eq_def]
    refine stepOk_seqE ?_ fun st1 => stepOk_seqE (ih st1) fun st2 => ?_
    · split
      · exact output_stepOk _ _ _ _ _
      · exact stepOk_refl st
    · split
      · exact output_stepOk _ _ _ _ _
      · exact stepOk_refl st2
  · intro st
    rw [colorizeReElts.eq_def]
    exact stepOk_refl st
  · intro elt rest st ih1 ih2
    rw [colorizeReElts.eq_def]
    exact stepOk_seqE ih1 fun st1 => ih2 st1
  · intro n st
    rw [colorizeReElt.eq_def]
    exact output_stepOk _ _ _ _ _
  · intro st
    rw [colorizeReElt.eq_def]
    exact output_stepOk _ _ _ _ _
  · intro alts st a
    rw [colorizeReElt.eq_def]
    exact stepOk_refl st
  · intro alts st ih
    rw [colorizeReElt.eq_def]
    exact ih
  · intro g inner st ih
    rw [colorizeReElt.eq_def]
    refine stepOk_seqE ?_ fun st3 => stepOk_seqE (ih st3) fun st4 => output_stepOk _ _ _ _ _
    match g with
    | none => exact output_stepOk _ _ _ _ _
    | some n =>
      dsimp only
      match lookupGroup groups n with
      | some nm =>
        exact stepOk_seqE (output_stepOk _ _ _ _ _) fun st1 =>
          stepOk_seqE (output_stepOk _ _ _ _ _) fun st2 => output_stepOk _ _ _ _ _
      | none => exact output_stepOk _ _ _ _ _
  · intro x st
    rw [colorizeReAlts.eq_def]
    exact stepOk_refl st
  · intro item rest first st ih1 ih2
    rw [colorizeReAlts.eq_def]
    refine stepOk_seqE ?_ fun st1 => stepOk_seqE (ih1 st1) fun st2 => ih2 st2
    cases first with
    | true => exact stepOk_refl st
    | false => exact output_stepOk _ _ _ _ _

theorem colorizeRePattern_stepOk (cfg : Cfg) (pat : Option PyVal) (st : ColorizerState) :
    StepOk st (colorizeRePattern cfg pat st).1 := by
  unfold colorizeRePattern
  split
  · split
    · exact stepOk_refl st
    · exact colorizeReTree_stepOk _ _ _ _ _
  · exact stepOk_refl st

/-- `StepOk` only inspects the break flag and the result list of its first
argument, so a score-only update of the starting state is transparent. -/
theorem stepOk_bump (st0 : ColorizerState) (z : Int) (X : ColorizerState)
    (h : StepOk { st0 with score := z } X) : StepOk st0 X := h

theorem wbr_append_stepOk (st1 : ColorizerState) (z : Int) :
    StepOk st1 { st1 with result := st1.result ++ [WORD_BREAK_OPPORTUNITY], score := z } :=
  stepOk_of_fields rfl [WORD_BREAK_OPPORTUNITY] rfl (by simp [WORD_BREAK_OPPORTUNITY])

/-- Every recursive colorization step only appends fragments, never turns
the break flag on, and appends no newline fragment when breaks were
disallowed. -/
theorem colorizeVal_stepOk (cfg : Cfg) (v : PyVal) (st0 : ColorizerState) :
    StepOk st0 (colorizeVal cfg v st0).1 := by
  refine colorizeVal.induct cfg
    (fun v st => StepOk st (colorizeVal cfg v st).1)
    (fun e st => StepOk st (colorizeAst cfg e st).1)
    (fun f args kws st => StepOk st (colorizeAstCall cfg f args kws st).1)
    (fun f args kws st => StepOk st (colorizeAstRe cfg f args kws st).1)
    (fun f args kws st => StepOk st (colorizeAstCallGeneric cfg f args kws st).1)
    (fun es st => StepOk st (colorizeAstIter cfg es st).1)
    (fun es indent first st => StepOk st (colorizeAstIterGo cfg es indent first st).1)
    (fun items pre suf st => StepOk st (colorizeDict cfg items pre suf st).1)
    (fun items indent first st => StepOk st (colorizeDictGo cfg items indent first st).1)
    (fun xs pre suf st => StepOk st (colorizeIter cfg xs pre suf st).1)
    (fun xs indent first st => StepOk st (colorizeIterGo cfg xs indent first st).1)
    ?_ ?_ ?_ ?_ ?_ ?_ ?_ ?_ ?_ ?_ ?_ ?_ ?_ ?_ ?_ ?_ ?_ ?_ ?_ ?_ ?_ ?_ ?_ ?_ ?_
    ?_ ?_ ?_ ?_ ?_ ?_ ?_ ?_ ?_ ?_ ?_ ?_ ?_ ?_ ?_ ?_ ?_ v st0
  · intro v st0 hc
    rw [colorizeVal.eq_def]
    try dsimp only
    rw [if_pos hc]
    exact stepOk_bump st0 _ _ (output_stepOk _ _ _ _ _)
  · intro st0 b hc
    rw [colorizeVal.eq_def]
    try dsimp only
    rw [if_neg hc]
    exact stepOk_bump st0 _ _ (output_stepOk _ _ _ _ _)
  · intro st0 hc
    rw [colorizeVal.eq_def]
    try dsimp only
    rw [if_neg hc]
    exact stepOk_bump st0 _ _ (output_stepOk _ _ _ _ _)
  · intro st0 hc
    rw [colorizeVal.eq_def]
    try dsimp only
    rw [if_neg hc]
    exact stepOk_bump st0 _ _ (output_stepOk _ _ _ _ _)
  · intro st0 n hc
    rw [colorizeVal.eq_def]
    try dsimp only
    rw [if_neg hc]
    exact stepOk_bump st0 _ _ (output_stepOk _ _ _ _ _)
  · intro st0 s hc
    rw [colorizeVal.eq_def]
    try dsimp only
    rw [if_neg hc]
    exact stepOk_bump st0 _ _ (colorizeStr_stepOk _ _ _)
  · intro st0 xs hc ih
    rw [colorizeVal.eq_def]
    try dsimp only
    rw [if_neg hc]
    exact stepOk_bump st0 _ _ (multiline_stepOk (fun stm => colorizeIter cfg xs (some "(") (some ")") stm) ih _)
  · intro st0 xs hc ih
    rw [colorizeVal.eq_def]
    try dsimp only
    rw [if_neg hc]
    exact stepOk_bump st0 _ _ (multiline_stepOk (fun stm => colorizeIter cfg xs (some "set([") (some "])") stm) ih _)
  · intro st0 xs hc ih
    rw [colorizeVal.eq_def]
    try dsimp only
    rw [if_neg hc]
    exact stepOk_bump st0 _ _ (multiline_stepOk (fun stm => colorizeIter cfg xs (some "frozenset([") (some "])") stm) ih _)
  · intro st0 items hc ih
    rw [colorizeVal.eq_def]
    try dsimp only
    rw [if_neg hc]
    exact stepOk_bump st0 _ _ (multiline_stepOk (fun stm => colorizeDict cfg items "\x7b" "\x7d" stm) ih _)
  · intro st0 xs hc ih
    rw [colorizeVal.eq_def]
    try dsimp only
    rw [if_neg hc]
    exact stepOk_bump st0 _ _ (multiline_stepOk (fun stm => colorizeIter cfg xs (some "[") (some "]") stm) ih _)
  · intro st0
    try dsimp only
    intro e hc ih
    rw [colorizeVal.eq_def]
    try dsimp only
    rw [if_neg hc]
    exact stepOk_bump st0 _ _ ih
  · intro st0 hc
    rw [colorizeVal.eq_def]
    try dsimp only
    rw [if_neg hc]
    exact stepOk_of_fields rfl [UNKNOWN_REPR] rfl (by simp [UNKNOWN_REPR])
  · intro st0 s c hdescr hc
    rw [colorizeVal.eq_def]
    try dsimp only
    rw [if_neg hc]
    rw [hdescr]
    exact stepOk_bump st0 _ _ (output_stepOk _ _ _ _ _)
  · intro st0 s hdescr hc
    rw [colorizeVal.eq_def]
    try dsimp only
    rw [if_neg hc]
    rw [hdescr]
    exact stepOk_bump st0 _ _ (output_stepOk _ _ _ _ _)
  · intro st v ih
    rw [colorizeAst.eq_def]
    exact ih
  · intro st
    rw [colorizeAst.eq_def]
    exact output_stepOk _ _ _ _ _
  · intro st id
    rw [colorizeAst.eq_def]
    exact output_stepOk _ _ _ _ _
  · intro st v a parts hparts
    rw [colorizeAst.eq_def]
    try dsimp only
    rw [hparts]
    exact output_stepOk _ _ _ _ _
  · intro st v a hparts
    rw [colorizeAst.eq_def]
    try dsimp only
    rw [hparts]
    exact colorizeAstGeneric_stepOk _ _ _
  · intro st f args kws ih
    rw [colorizeAst.eq_def]
    exact ih
  · intro st arg v ih
    rw [colorizeAst.eq_def]
    refine stepOk_seqE ?_ fun st2 => ih st2
    match arg with
    | some a =>
      exact stepOk_seqE (output_stepOk _ _ _ _ _) fun st1 => output_stepOk _ _ _ _ _
    | none => exact output_stepOk _ _ _ _ _
  · intro f args kws st hnode a hbind ih
    rw [colorizeAstCall.eq_def]
    try dsimp only
    rw [if_pos hnode, hbind]
    exact ih
  · intro f args kws st hnode b2 hbind st1 hre ih
    rw [colorizeAstCall.eq_def]
    try dsimp only
    rw [if_pos hnode, hbind]
    try dsimp only
    rw [hre] at ih ⊢
    exact ih
  · intro f args kws st hnode b2 hbind st1 hre ih
    rw [colorizeAstCall.eq_def]
    try dsimp only
    rw [if_pos hnode, hbind]
    try dsimp only
    rw [hre] at ih ⊢
    try dsimp only
    obtain ⟨hf, t, ht, hn⟩ := ih
    rw [restore_after_append st st1 t ht]
    exact ⟨fun h => h, [], by simp, by simp⟩
  · intro f args kws st hnode b2 hbind st1 hre ih
    rw [colorizeAstCall.eq_def]
    try dsimp only
    rw [if_pos hnode, hbind]
    try dsimp only
    rw [hre] at ih ⊢
    try dsimp only
    obtain ⟨hf, t, ht, hn⟩ := ih
    rw [restore_after_append st st1 t ht]
    exact ⟨fun h => h, [], by simp, by simp⟩
  · intro f args kws st hnode b2 hbind st1 e hv hr hre ih
    rw [colorizeAstCall.eq_def]
    try dsimp only
    rw [if_pos hnode, hbind]
    try dsimp only
    rw [hre] at ih ⊢
    match e, hv, hr with
    | PyErr.maxlines, hv, hr => exact ih
    | PyErr.linebreak, hv, hr => exact ih
    | PyErr.typeError, hv, hr => exact ih
    | PyErr.indexError, hv, hr => exact ih
    | PyErr.valueError, hv, hr => exact absurd rfl hv
    | PyErr.reError, hv, hr => exact absurd rfl hr
  · intro f args kws st hnode ih
    rw [colorizeAstCall.eq_def]
    try dsimp only
    rw [if_neg hnode]
    exact ih
  · intro f args kws st a hbind
    rw [colorizeAstRe.eq_def]
    split
    · exact stepOk_refl st
    · rename_i b heq
      rw [hbind] at heq
      exact absurd heq (by simp)
  · intro f args kws st bargs hbind astPattern hpat hconst ihf ihflags
    rw [colorizeAstRe.eq_def]
    split
    · rename_i a heq
      rw [hbind] at heq
      exact absurd heq (by simp)
    · rename_i b heq
      rw [hbind] at heq
      have hb : b = bargs := (Except.ok.inj heq).symm
      subst hb
      rw [hpat]
      try dsimp only
      rw [if_pos hconst]
      refine stepOk_seqE ihf fun st1 =>
        stepOk_seqE (output_stepOk _ _ _ _ _) fun st2 =>
        stepOk_seqE (output_stepOk _ _ _ _ _) fun st3 =>
        stepOk_seqE (output_stepOk _ _ _ _ _) fun st4 =>
        stepOk_seqE (colorizeRePattern_stepOk _ _ _) fun st5 =>
        stepOk_seqE (output_stepOk _ _ _ _ _) fun st6 =>
        stepOk_seqE ?_ fun st8 => output_stepOk _ _ _ _ _
      split
      · rename_i astFlags hfl
        exact stepOk_seqE (insertComma_stepOk _ _ _) fun st7 => ihflags astFlags hfl st7
      · exact stepOk_refl st6
  · intro f args kws st bargs hbind astPattern hpat hconst ih
    rw [colorizeAstRe.eq_def]
    split
    · rename_i a heq
      rw [hbind] at heq
      exact absurd heq (by simp)
    · rename_i b heq
      rw [hbind] at heq
      have hb : b = bargs := (Except.ok.inj heq).symm
      subst hb
      rw [hpat]
      try dsimp only
      rw [if_neg hconst]
      exact ih
  · intro f args kws st bargs hbind hpat ih
    rw [colorizeAstRe.eq_def]
    split
    · rename_i a heq
      rw [hbind] at heq
      exact absurd heq (by simp)
    · rename_i b heq
      rw [hbind] at heq
      have hb : b = bargs := (Except.ok.inj heq).symm
      subst hb
      rw [hpat]
      exact ih
  · intro f args kws st ihf ihargs ihkws
    rw [colorizeAstCallGeneric.eq_def]
    refine stepOk_seqE ihf fun st1 =>
      stepOk_seqE (output_stepOk _ _ _ _ _) fun st2 =>
      stepOk_seqE (multiline_stepOk _ ihargs st2) fun st3 =>
      stepOk_seqE ?_ fun st5 => output_stepOk _ _ _ _ _
    split
    · exact stepOk_refl st3
    · refine stepOk_seqE ?_ fun st4 => multiline_stepOk _ ihkws st4
      split
      · exact stepOk_refl st3
      · exact insertComma_stepOk _ _ _
  · intro es st ih
    rw [colorizeAstIter.eq_def]
    exact ih
  · intro indent first st
    rw [colorizeAstIterGo.eq_def]
    exact stepOk_refl st
  · intro indent first st e rest ihe ihrest
    rw [colorizeAstIterGo.eq_def]
    refine stepOk_seqE ?_ fun st1 =>
      stepOk_seqE (stepOk_trans (wbr_append_stepOk st1 _) (ihe st1)) fun st2 => ihrest st2
    match first with
    | true => exact stepOk_refl st
    | false => exact insertComma_stepOk _ _ _
  · intro items pre suf st ih
    rw [colorizeDict.eq_def]
    refine stepOk_seqE (output_stepOk _ _ _ _ _) fun st1 =>
      stepOk_seqE (ih st1) fun st2 => output_stepOk _ _ _ _ _
  · intro indent first st
    rw [colorizeDictGo.eq_def]
    exact stepOk_refl st
  · intro indent first st key val rest ihkey ihval ihrest
    rw [colorizeDictGo.eq_def]
    refine stepOk_seqE ?_ fun st1 =>
      stepOk_seqE (stepOk_trans (wbr_append_stepOk st1 _) (ihkey st1)) fun st2 =>
      stepOk_seqE (output_stepOk _ _ _ _ _) fun st3 =>
      stepOk_seqE (ihval st3) fun st4 => ihrest st4
    match first with
    | true => exact stepOk_refl st
    | false =>
      rw [if_neg Bool.false_ne_true]
      split
      · exact stepOk_seqE (output_stepOk _ _ _ _ _) fun sta => output_stepOk _ _ _ _ _
      · exact output_stepOk _ _ _ _ _
  · intro xs pre suf st ih
    rw [colorizeIter.eq_def]
    refine stepOk_seqE ?_ fun st1 => stepOk_seqE (ih st1) fun st2 => ?_
    · match pre with
      | some p => exact output_stepOk _ _ _ _ _
      | none => exact stepOk_refl st
    · match suf with
      | some p => exact output_stepOk _ _ _ _ _
      | none => exact stepOk_refl st2
  · intro indent first st
    rw [colorizeIterGo.eq_def]
    exact stepOk_refl st
  · intro indent first st x rest ihx ihrest
    rw [colorizeIterGo.eq_def]
    refine stepOk_seqE ?_ fun st1 =>
      stepOk_seqE (stepOk_trans (wbr_append_stepOk st1 _) (ihx st1)) fun st2 => ihrest st2
    match first with
    | true => exact stepOk_refl st
    | false => exact insertComma_stepOk _ _ _

theorem noNl_dropLast {l : List Fragment} (h : Fragment.newline ∉ l) :
    Fragment.newline ∉ l.dropLast :=
  fun hc => h (List.Sublist.subset (List.dropLast_sublist l) hc)

theorem ne_nil_of_getLast?_eq_some {l : List Fragment} {f : Fragment}
    (h : l.getLast? = some f) : l ≠ [] := by
  intro hc; subst hc; simp at h

theorem noNl_trimResult_mu (mu : Nat) :
    ∀ (n : Nat) (l : List Fragment), 2 * n + l.length ≤ mu →
      Fragment.newline ∉ l → Fragment.newline ∉ trimResult n l := by
  induction mu with
  | zero =>
    intro n l hle h
    cases n with
    | zero => rw [trimResult]; exact h
    | succ n => omega
  | succ mu ih =>
    intro n l hle h
    cases n with
    | zero => rw [trimResult]; exact h
    | succ n =>
      cases l with
      | nil => rw [trimResult]; simp
      | cons f0 rest =>
        have hdl : (f0 :: rest).dropLast.length = rest.length := by simp
        have hlc : (f0 :: rest).length = rest.length + 1 := by simp
        rw [trimResult]
        split
        · exact h
        · exact ih (n + 1) _ (by omega) (noNl_dropLast h)
        · exact ih n _ (by omega) (noNl_dropLast h)
        · rename_i s heq
          have hmk := mkLength (s.data.take (s.length - min (n + 1) s.length))
          have htk := List.length_take (s.length - min (n + 1) s.length) s.data
          have hsd : s.data.length = s.length := rfl
          dsimp only
          split
          · exact ih _ _ (by omega) (noNl_dropLast h)
          · rename_i hs2
            refine ih _ _ ?_ ?_
            · have happ : ((f0 :: rest).dropLast ++
                  [Fragment.text (String.mk (s.data.take (s.length - min (n + 1) s.length)))]).length
                  = rest.length + 1 := by simp
              omega
            · simp only [List.mem_append, List.mem_singleton]
              rintro (hc | hc)
              · exact noNl_dropLast h hc
              · exact absurd hc (by simp)
        · rename_i cls s heq
          have hmk := mkLength (s.data.take (s.length - min (n + 1) s.length))
          have htk := List.length_take (s.length - min (n + 1) s.length) s.data
          have hsd : s.data.length = s.length := rfl
          dsimp only
          split
          · exact ih _ _ (by omega) (noNl_dropLast h)
          · rename_i hs2
            refine ih _ _ ?_ ?_
            · have happ : ((f0 :: rest).dropLast ++
                  [Fragment.inline cls (String.mk (s.data.take (s.length - min (n + 1) s.length)))]).length
                  = rest.length + 1 := by simp
              omega
            · simp only [List.mem_append, List.mem_singleton]
              rintro (hc | hc)
              · exact noNl_dropLast h hc
              · exact absurd hc (by simp)
        · rename_i s heq
          have hmk := mkLength (s.data.take (s.length - min (n + 1) s.length))
          have htk := List.length_take (s.length - min (n + 1) s.length) s.data
          have hsd : s.data.length = s.length := rfl
          dsimp only
          split
          · exact ih _ _ (by omega) (noNl_dropLast h)
          · rename_i hs2
            refine ih _ _ ?_ ?_
            · have happ : ((f0 :: rest).dropLast ++
                  [Fragment.link (String.mk (s.data.take (s.length - min (n + 1) s.length)))]).length
                  = rest.length + 1 := by simp
              omega
            · simp only [List.mem_append, List.mem_singleton]
              rintro (hc | hc)
              · exact noNl_dropLast h hc
              · exact absurd hc (by simp)

theorem noNl_trimResult (n : Nat) (l : List Fragment) (h : Fragment.newline ∉ l) :
    Fragment.newline ∉ trimResult n l :=
  noNl_trimResult_mu (2 * n + l.length) n l (Nat.le_refl _) h

theorem noNl_finishRepr (st : ColorizerState) (b : Bool) (ms : Option Int)
    (h : Fragment.newline ∉ st.result) :
    Fragment.newline ∉ (finishRepr st b ms).document := by
  unfold finishRepr
  match ms with
  | none => exact h
  | some m =>
    dsimp only
    split
    · simp [UNKNOWN_REPR]
    · exact h

/-- C8: when the colorizer is configured with line breaks disallowed, no
colorization of any value ever appends a newline fragment to the output;
in particular the string value `"a\nb"` is rendered single-quoted with the
embedded newline as the two-character escape `\n`, not as a line break. -/
theorem claim_C8_compact_never_emits_newline :
    (∀ (cfg : Cfg), cfg.linebreakok = false →
      ∀ (v : PyVal) (ms : Option Int) (r : ColorizedRepr),
        pyvalColorize cfg v ms = Except.ok r → Fragment.newline ∉ r.document)
    ∧ pyvalColorize inlineCfg (.str "a\nb") none
        = Except.ok { document := [Fragment.inline "variable-quote" "'",
                                   Fragment.inline "variable-string" "a\\nb",
                                   Fragment.inline "variable-quote" "'"],
                      score := 1, isComplete := true }
    ∧ concatText [Fragment.inline "variable-quote" "'",
                  Fragment.inline "variable-string" "a\\nb",
                  Fragment.inline "variable-quote" "'"] = "'a\\nb'" := by
  refine ⟨?_, ?_, ?_⟩
  · intro cfg hbr v ms r h
    have hstep := colorizeVal_stepOk cfg v (initState cfg)
    unfold pyvalColorize at h
    rcases hcv : colorizeVal cfg v (initState cfg) with ⟨st, e⟩
    rw [hcv] at h hstep
    obtain ⟨hf, t, ht, hn⟩ := hstep
    have hres : st.result = t := by simpa [initState] using ht
    have hflag0 : (initState cfg).linebreakok = false := by simp [initState, hbr]
    have hnl : Fragment.newline ∉ st.result := by rw [hres]; exact hn hflag0
    match e, h with
    | none, h =>
      have hr : r = finishRepr st true ms := (Except.ok.inj h).symm
      rw [hr]
      exact noNl_finishRepr st true ms hnl
    | some PyErr.maxlines, h =>
      dsimp only at h
      unfold topFallback at h
      rw [if_neg (by simp [hbr])] at h
      rcases hlast : st.result.getLast? with _ | f
      · rw [hlast] at h
        exact absurd h (by simp)
      · rw [hlast] at h
        dsimp only at h
        have hr := (Except.ok.inj h).symm
        rw [hr]
        apply noNl_finishRepr
        simp only [List.mem_append, List.mem_singleton]
        rintro (hc | hc)
        · refine noNl_trimResult 3 _ ?_ hc
          split
          · exact noNl_dropLast hnl
          · exact hnl
        · exact absurd hc (by simp [ELLIPSIS])
    | some PyErr.linebreak, h =>
      dsimp only at h
      unfold topFallback at h
      rw [if_neg (by simp [hbr])] at h
      rcases hlast : st.result.getLast? with _ | f
      · rw [hlast] at h
        exact absurd h (by simp)
      · rw [hlast] at h
        dsimp only at h
        have hr := (Except.ok.inj h).symm
        rw [hr]
        apply noNl_finishRepr
        simp only [List.mem_append, List.mem_singleton]
        rintro (hc | hc)
        · refine noNl_trimResult 3 _ ?_ hc
          split
          · exact noNl_dropLast hnl
          · exact hnl
        · exact absurd hc (by simp [ELLIPSIS])
    | some PyErr.typeError, h => exact absurd h (by simp)
    | some PyErr.valueError, h => exact absurd h (by simp)
    | some PyErr.reError, h => exact absurd h (by simp)
    | some PyErr.indexError, h => exact absurd h (by simp)
  · simp [pyvalColorize, colorizeVal, initState, finishRepr, isPyConstant,
      colorizeStr, colorizeStrLines, strEscape, escChar, hex2, hexDigit, seqE,
      output, outputGo, splitNlList, mkFragment, inlineCfg, QUOTE_TAG, STRING_TAG]
  · simp [concatText, Fragment.astext]

/-- Witness for C8: the general statement applied to the inline (no line
breaks) configuration and the string `"a\nb"`. -/
theorem claim_C8_witness :
    Fragment.newline ∉ [Fragment.inline "variable-quote" "'",
                        Fragment.inline "variable-string" "a\\nb",
                        Fragment.inline "variable-quote" "'"] :=
  claim_C8_compact_never_emits_newline.1 inlineCfg rfl (.str "a\nb") none
    { document := [Fragment.inline "variable-quote" "'",
                   Fragment.inline "variable-string" "a\\nb",
                   Fragment.inline "variable-quote" "'"],
      score := 1, isComplete := true }
    claim_C8_compact_never_emits_newline.2.1

/-!  Lemmas about the position bookkeeping (column/line synchronisation). -/

theorem sinkCol_concat (l : List Fragment) (f : Fragment) :
    sinkCol (l ++ [f]) = sinkColF (sinkCol l) f := by
  simp [sinkCol, List.foldl_append]

theorem sinkCol_concat_newline (l : List Fragment) :
    sinkCol (l ++ [NEWLINE]) = 0 := by
  rw [sinkCol_concat]
  rfl

theorem nlCount_concat_newline (l : List Fragment) :
    nlCount (l ++ [NEWLINE]) = nlCount l + 1 := by
  simp [nlCount, List.foldl_append, NEWLINE]

theorem nlCount_concat_ne (l : List Fragment) (f : Fragment)
    (h : f ≠ Fragment.newline) : nlCount (l ++ [f]) = nlCount l := by
  simp only [nlCount, List.foldl_append, List.foldl_cons, List.foldl_nil]
  rw [if_neg h]

theorem sinkColF_mkFragment (css : Option String) (link : Bool) (seg : List Char)
    (h1 : css ≠ some "variable-linewrap") (h2 : css ≠ some "variable-unknown")
    (col : Nat) : sinkColF col (mkFragment css link seg) = col + seg.length := by
  unfold mkFragment
  split
  · simp [sinkColF, Fragment.astext, mkLength]
  · cases css with
    | none => simp [sinkColF, Fragment.astext, mkLength]
    | some c =>
      have hc1 : c ≠ "variable-linewrap" := fun h => h1 (by rw [h])
      have hc2 : c ≠ "variable-unknown" := fun h => h2 (by rw [h])
      simp [sinkColF, mkLength, hc1, hc2]

/-- The output sink preserves the position invariant: along the segment
loop the line number is always in sync, and the column is in sync except
in the state directly after a wrap (where the pending segment list is
nonempty and `first` is false, so a newline is emitted next, resetting the
column). -/
theorem outputGo_posInv (cfg : Cfg) (css : Option String) (link : Bool)
    (h1 : css ≠ some "variable-linewrap") (h2 : css ≠ some "variable-unknown")
    (segs : List (List Char)) (first : Bool) (st : ColorizerState) :
    st.lineno = 1 + nlCount st.result →
    (st.charpos = sinkCol st.result ∨ (first = false ∧ segs ≠ [])) →
    ∀ st', outputGo cfg css link segs first st = (st', none) → PosInv st' := by
  induction segs, first, st using outputGo.induct cfg css link with
  | case1 x st =>
    intro hline hcol st' h
    rw [outputGo] at h
    have hst : st' = st := (congrArg Prod.fst h).symm
    subst hst
    rcases hcol with hc | ⟨_, hne⟩
    · exact ⟨hc, hline⟩
    · exact absurd rfl hne
  | case2 seg rest st hml =>
    intro hline hcol st' h
    rw [outputGo, if_pos hml] at h
    exact absurd (congrArg Prod.snd h) (by simp)
  | case3 seg rest st hml hbk =>
    intro hline hcol st' h
    rw [outputGo, if_neg hml, if_pos hbk] at h
    exact absurd (congrArg Prod.snd h) (by simp)
  | case4 seg rest st hml hbk ih =>
    intro hline hcol st' h
    rw [outputGo, if_neg hml, if_neg hbk] at h
    refine ih ?_ ?_ st' h
    · show st.lineno + 1 = 1 + nlCount (st.result ++ [NEWLINE])
      rw [nlCount_concat_newline, hline]
      omega
    · exact Or.inl (by rw [sinkCol_concat_newline])
  | case5 seg rest st hfits ih =>
    intro hline hcol st' h
    rw [outputGo, if_pos hfits] at h
    have hc : st.charpos = sinkCol st.result := by
      rcases hcol with hc | ⟨hf, _⟩
      · exact hc
      · exact absurd hf (by simp)
    refine ih ?_ ?_ st' h
    · show st.lineno = 1 + nlCount (st.result ++ [mkFragment css link seg])
      rw [nlCount_concat_ne _ _ (mkFragment_ne_newline css link seg), hline]
    · refine Or.inl ?_
      show st.charpos + seg.length = sinkCol (st.result ++ [mkFragment css link seg])
      rw [sinkCol_concat, sinkColF_mkFragment css link seg h1 h2, hc]
  | case6 seg rest st hfits ih =>
    intro hline hcol st' h
    rw [outputGo, if_neg hfits] at h
    refine ih ?_ ?_ st' h
    · show st.lineno = 1 + nlCount (st.result ++
        [mkFragment css false (pyTake seg ((cfg.linelen.getD 0 : Int) - (st.charpos : Int))),
         LINEWRAP])
      have hsplit : st.result ++
          [mkFragment css false (pyTake seg ((cfg.linelen.getD 0 : Int) - (st.charpos : Int))),
           LINEWRAP]
          = (st.result ++
              [mkFragment css false (pyTake seg ((cfg.linelen.getD 0 : Int) - (st.charpos : Int)))])
            ++ [LINEWRAP] := by
        rw [List.append_assoc]
        rfl
      rw [hsplit, nlCount_concat_ne _ _ (by simp [LINEWRAP]),
        nlCount_concat_ne _ _ (mkFragment_ne_newline _ _ _), hline]
    · exact Or.inr ⟨rfl, by simp⟩

theorem sinkCol_concat_unknown (l : List Fragment) :
    sinkCol (l ++ [UNKNOWN_REPR]) = sinkCol l := by
  rw [sinkCol_concat]
  simp [sinkColF, UNKNOWN_REPR]

/-- C4 (counterexample): the unknown-marker fallback path appends the
two-character `??` marker without advancing the column, so right after
colorizing an un-reprable value the state's column (0) differs from the
column implied by the literal text of the emitted fragments (2). -/
theorem claim_C4_counterexample :
    (colorizeVal defaultCfg (.other none) (initState defaultCfg)).2 = none
    ∧ (colorizeVal defaultCfg (.other none) (initState defaultCfg)).1.result
        = [UNKNOWN_REPR]
    ∧ (colorizeVal defaultCfg (.other none) (initState defaultCfg)).1.charpos = 0
    ∧ impliedColClaim [UNKNOWN_REPR] = 2
    ∧ (colorizeVal defaultCfg (.other none) (initState defaultCfg)).1.charpos
        ≠ impliedColClaim
            ((colorizeVal defaultCfg (.other none) (initState defaultCfg)).1.result) := by
  refine ⟨?_, ?_, ?_, ?_, ?_⟩ <;>
    simp [colorizeVal, initState, defaultCfg, isPyConstant, impliedColClaim,
      UNKNOWN_REPR, Fragment.astext] <;> decide

/-- C4 (amended): the layout state's column and line number equal the
position implied by the fragments emitted so far once the two marker
fragments (line-wrap, unknown) are counted as zero-width: every successful
run of the output sink preserves this correspondence (for the css classes
the colorizer actually passes there, which never include the marker
classes), and so does the unknown-marker fallback path for un-reprable
values. -/
theorem claim_C4_position_invariant :
    (∀ (cfg : Cfg) (s : String) (css : Option String) (link : Bool)
        (st st' : ColorizerState),
        css ≠ some "variable-linewrap" → css ≠ some "variable-unknown" →
        PosInv st → output cfg s css link st = (st', none) → PosInv st')
    ∧ (∀ (cfg : Cfg) (st : ColorizerState), PosInv st →
        PosInv (colorizeVal cfg (.other none) st).1) := by
  constructor
  · intro cfg s css link st st' h1 h2 hinv h
    exact outputGo_posInv cfg css link h1 h2 (splitNlList s.data) true st hinv.2
      (Or.inl hinv.1) st' h
  · intro cfg st hinv
    rw [colorizeVal]
    rw [if_neg (by simp [isPyConstant])]
    dsimp only
    refine ⟨?_, ?_⟩
    · show st.charpos = sinkCol (st.result ++ [UNKNOWN_REPR])
      rw [sinkCol_concat_unknown]
      exact hinv.1
    · show st.lineno = 1 + nlCount (st.result ++ [UNKNOWN_REPR])
      rw [nlCount_concat_ne _ _ (by simp [UNKNOWN_REPR])]
      exact hinv.2

/-- Witness for C4: the amended invariant applied to a concrete output-sink
run and to the unknown-marker path from the initial state. -/
theorem claim_C4_witness :
    PosInv ((output defaultCfg "ab" none false (initState defaultCfg)).1)
    ∧ PosInv ((colorizeVal defaultCfg (.other none) (initState defaultCfg)).1) := by
  constructor
  · have hev : output defaultCfg "ab" none false (initState defaultCfg)
        = ({ result := [Fragment.text "ab"], charpos := 2, lineno := 1,
             linebreakok := true, score := 0 }, none) := by
      simp [output, outputGo, splitNlList, mkFragment, initState, defaultCfg]
    have h := claim_C4_position_invariant.1 defaultCfg "ab" none false
      (initState defaultCfg) _ (by simp) (by simp) ⟨rfl, rfl⟩ hev
    rw [hev]
    exact h
  · exact claim_C4_position_invariant.2 defaultCfg (initState defaultCfg) ⟨rfl, rfl⟩

/-!  The decimal form of an integer contains no newline, so the number
path of `_colorize` emits exactly one fragment. -/

theorem natDigitsAux_no_nl (n : Nat) : ∀ acc, '\n' ∉ acc → '\n' ∉ natDigitsAux n acc := by
  induction n using Nat.strong_induction_on with
  | _ n ih =>
    intro acc hacc
    have hd : ∀ k, k < 10 → Char.ofNat (48 + k) ≠ '\n' := by decide
    have hdn : Char.ofNat (48 + n % 10) ≠ '\n' :=
      hd (n % 10) (Nat.mod_lt _ (by omega))
    have hcons : '\n' ∉ Char.ofNat (48 + n % 10) :: acc := by
      intro hc
      rcases List.mem_cons.mp hc with hc | hc
      · exact hdn hc.symm
      · exact hacc hc
    rw [natDigitsAux]
    try dsimp only
    split
    · exact hcons
    · exact ih (n / 10) (Nat.div_lt_self (by omega) (by omega)) _ hcons

theorem intStr_no_nl (n : Int) : '\n' ∉ (intStr n).data := by
  unfold intStr natStr
  split
  · intro hc
    rw [String.data_append] at hc
    rcases List.mem_append.mp hc with hc | hc
    · simp at hc
    · exact natDigitsAux_no_nl _ [] (by simp) hc
  · exact natDigitsAux_no_nl _ [] (by simp)

theorem splitNlList_no_nl : ∀ (l : List Char), '\n' ∉ l → splitNlList l = [l]
  | [], _ => rfl
  | c :: rest, h => by
    rw [splitNlList]
    rw [if_neg (by intro hc; rw [hc] at h; exact h (List.mem_cons_self _ _))]
    rw [splitNlList_no_nl rest (fun hr => h (List.mem_cons_of_mem c hr))]

/-- A chunk with no embedded newline that fits in the remaining width (or
is a link) is appended by the output sink as one fragment, advancing the
column by its length. -/
theorem output_single (cfg : Cfg) (s : String) (css : Option String) (link : Bool)
    (st : ColorizerState)
    (hsp : splitNlList s.data = [s.data])
    (hfit : cfg.linelen = none ∨ st.charpos + s.data.length ≤ cfg.linelen.getD 0
        ∨ link = true) :
    output cfg s css link st
      = ({ st with charpos := st.charpos + s.data.length,
                   result := st.result ++ [mkFragment css link s.data] }, none) := by
  unfold output
  rw [hsp]
  rw [outputGo, if_pos hfit]
  rw [outputGo]

/-- C3 (counterexample): the integers 0 and 1 pass Python's `in`-based
constants test (`0 == False`, `1 == True`), so they are rendered through
the linked-constants branch as link fragments, not as number-styled
texts. -/
theorem claim_C3_counterexample :
    pyvalColorize defaultCfg (.int 0) none
      = Except.ok { document := [Fragment.link "0"], score := 1, isComplete := true }
    ∧ pyvalColorize defaultCfg (.int 1) none
      = Except.ok { document := [Fragment.link "1"], score := 1, isComplete := true }
    ∧ (∀ s, Fragment.link "0" ≠ Fragment.text s) := by
  refine ⟨?_, ?_, by intro s; simp⟩ <;>
    simp [pyvalColorize, colorizeVal, initState, defaultCfg, isPyConstant, pyConstStr,
      intStr, natStr, natDigitsAux, output, outputGo, splitNlList, mkFragment,
      CONST_TAG, finishRepr]

/-- C3 (amended): every integer other than 0 and 1 whose decimal form fits
in the line width is rendered as exactly one number-styled fragment whose
text is its verbatim decimal form (`str(pyval)`); 0 and 1 instead take the
linked-constants branch.  (Floats and complex numbers are outside the
embedded value universe.) -/
theorem claim_C3_number_style (n : Int) (h0 : n ≠ 0) (h1 : n ≠ 1)
    (hfit : (intStr n).data.length ≤ 80) :
    pyvalColorize defaultCfg (.int n) none
      = Except.ok { document := [Fragment.text (intStr n)], score := 1,
                    isComplete := true } := by
  have hconst : isPyConstant (.int n) = false := by
    simp [isPyConstant, h0, h1]
  have hout := output_single defaultCfg (intStr n) NUMBER_TAG false
      { initState defaultCfg with score := (initState defaultCfg).score + 1 }
      (splitNlList_no_nl _ (intStr_no_nl n))
      (Or.inr (Or.inl (by simpa [initState, defaultCfg] using hfit)))
  unfold pyvalColorize
  rw [colorizeVal, hconst]
  rw [if_neg (by simp)]
  try dsimp only
  rw [hout]
  try dsimp only
  simp [finishRepr, initState, defaultCfg, mkFragment, NUMBER_TAG]

/-- Witness for C3: the integer 5 is rendered as the single number-styled
text fragment `5`. -/
theorem claim_C3_witness :
    pyvalColorize defaultCfg (.int 5) none
      = Except.ok { document := [Fragment.text (intStr 5)], score := 1,
                    isComplete := true } :=
  claim_C3_number_style 5 (by decide) (by decide)
    (by simp [intStr, natStr, natDigitsAux])

/-- C5: the compact-then-multiline helper first attempts the render with
line breaks disallowed; when the attempt signals `_Linebreak` and the
caller's own break flag was already false, the signal is re-raised
unchanged, and otherwise the state is restored exactly to the pre-attempt
snapshot and the same render function is re-run with line breaks
allowed. -/
theorem claim_C5_multiline_retry
    (f : ColorizerState → ColorizerState × Option PyErr)
    (st st1 : ColorizerState)
    (hprobe : f { st with linebreakok := false } = (st1, some PyErr.linebreak)) :
    (st.linebreakok = false → multiline f st = (st1, some PyErr.linebreak))
    ∧ (st.linebreakok = true → (∃ t, st1.result = st.result ++ t) →
        multiline f st = f st) := by
  have hm : multiline f st
      = if st.linebreakok = false then (st1, some PyErr.linebreak)
        else f (restoreSt (markOf st) st1) := by
    unfold multiline
    rw [hprobe]
  constructor
  · intro hbk
    rw [hm, if_pos hbk]
  · intro hbk hext
    rw [hm, if_neg (by simp [hbk])]
    obtain ⟨t, ht⟩ := hext
    rw [restore_after_append st st1 t ht]

/-- Witness for C5: a renderer that always signals `_Linebreak` is retried
on the pre-attempt state itself when the caller allowed breaks. -/
theorem claim_C5_witness :
    multiline (fun s => (s, some PyErr.linebreak)) (initState defaultCfg)
      = (initState defaultCfg, some PyErr.linebreak) := by
  have h := (claim_C5_multiline_retry (fun s => (s, some PyErr.linebreak))
      (initState defaultCfg) { initState defaultCfg with linebreakok := false }
      rfl).2 rfl ⟨[], by simp⟩
  rw [h]

/-- C6: in the output sink's segment loop, a segment after the first is
preceded by the max-lines gate (checked first) and then the
breaks-disallowed gate; a link segment is appended whole regardless of the
width limit; and a non-fitting non-link segment is split at the remaining
width, the head appended with a line-wrap marker and the tail re-queued.
A chunk is split on its embedded newlines, as the concrete run shows. -/
theorem claim_C6_output_sink :
    (∀ (cfg : Cfg) (css : Option String) (link : Bool) (seg : List Char)
        (rest : List (List Char)) (st : ColorizerState),
        cfg.maxlines < st.lineno + 1 →
        outputGo cfg css link (seg :: rest) false st = (st, some PyErr.maxlines))
    ∧ (∀ (cfg : Cfg) (css : Option String) (link : Bool) (seg : List Char)
        (rest : List (List Char)) (st : ColorizerState),
        ¬ cfg.maxlines < st.lineno + 1 → st.linebreakok = false →
        outputGo cfg css link (seg :: rest) false st = (st, some PyErr.linebreak))
    ∧ (∀ (cfg : Cfg) (css : Option String) (seg : List Char)
        (rest : List (List Char)) (st : ColorizerState),
        outputGo cfg css true (seg :: rest) true st
          = outputGo cfg css true rest false
              { st with charpos := st.charpos + seg.length,
                        result := st.result ++ [mkFragment css true seg] })
    ∧ (∀ (cfg : Cfg) (css : Option String) (link : Bool) (seg : List Char)
        (rest : List (List Char)) (st : ColorizerState),
        ¬ (cfg.linelen = none ∨ st.charpos + seg.length ≤ cfg.linelen.getD 0
            ∨ link = true) →
        outputGo cfg css link (seg :: rest) true st
          = outputGo cfg css link
              (pyDrop seg ((cfg.linelen.getD 0 : Int) - (st.charpos : Int)) :: rest)
              false
              { st with result := st.result ++
                  [mkFragment css false
                     (pyTake seg ((cfg.linelen.getD 0 : Int) - (st.charpos : Int))),
                   LINEWRAP] })
    ∧ output defaultCfg "a\nb" none false (initState defaultCfg)
        = ({ result := [Fragment.text "a", NEWLINE, Fragment.text "b"], charpos := 1,
             lineno := 2, linebreakok := true, score := 0 }, none) := by
  refine ⟨?_, ?_, ?_, ?_, ?_⟩
  · intro cfg css link seg rest st h
    rw [outputGo, if_pos h]
  · intro cfg css link seg rest st h1 h2
    rw [outputGo, if_neg h1, if_pos h2]
  · intro cfg css seg rest st
    rw [outputGo, if_pos (Or.inr (Or.inr rfl))]
  · intro cfg css link seg rest st h
    conv_lhs => rw [outputGo]
    rw [if_neg h]
  · simp [output, outputGo, splitNlList, mkFragment, initState, defaultCfg, NEWLINE]

/-- Witness for C6: the max-lines gate fires on line 7 under the default
configuration, and the breaks-disallowed gate fires under the inline
configuration. -/
theorem claim_C6_witness :
    outputGo defaultCfg none false [['x']] false
        { result := [Fragment.text "a"], charpos := 1, lineno := 7,
          linebreakok := true, score := 0 }
      = ({ result := [Fragment.text "a"], charpos := 1, lineno := 7,
           linebreakok := true, score := 0 }, some PyErr.maxlines)
    ∧ outputGo inlineCfg none false [['y']] false
        { result := [], charpos := 0, lineno := 1, linebreakok := false, score := 0 }
      = ({ result := [], charpos := 0, lineno := 1, linebreakok := false, score := 0 },
         some PyErr.linebreak) :=
  ⟨claim_C6_output_sink.1 defaultCfg none false ['x'] [] _ (by decide),
   claim_C6_output_sink.2.1 inlineCfg none false ['y'] [] _ (by decide) rfl⟩

/-- C7: whenever the colorization of a value signals `_Maxlines` (its
rendering needs more lines than `maxlines`), the entry operation still
returns normally with `isComplete = false` and a fragment sequence ending
in the ellipsis marker — through the newline-plus-ellipsis path when
breaks are allowed, and through the pop-line-wrap-and-trim path when they
are not (which needs a nonempty result, lest `state.result[-1]` raise
`IndexError`). -/
theorem claim_C7_truncation_ellipsis (cfg : Cfg) (v : PyVal) (st1 : ColorizerState)
    (h : colorizeVal cfg v (initState cfg) = (st1, some PyErr.maxlines))
    (hne : cfg.linebreakok = true ∨ st1.result ≠ []) :
    ∃ r, pyvalColorize cfg v none = Except.ok r ∧ r.isComplete = false ∧
      r.document.getLast? = some ELLIPSIS := by
  unfold pyvalColorize
  rw [h]
  dsimp only
  unfold topFallback
  by_cases hbk : cfg.linebreakok = true
  · rw [if_pos hbk]
    refine ⟨_, rfl, rfl, ?_⟩
    show (st1.result ++ [NEWLINE, ELLIPSIS]).getLast? = some ELLIPSIS
    have hsplit : st1.result ++ [NEWLINE, ELLIPSIS]
        = (st1.result ++ [NEWLINE]) ++ [ELLIPSIS] := by
      rw [List.append_assoc]
      rfl
    rw [hsplit]
    exact List.getLast?_concat _
  · rw [if_neg hbk]
    have hne2 : st1.result ≠ [] := by
      rcases hne with hc | hc
      · exact absurd hc hbk
      · exact hc
    rw [List.getLast?_eq_getLast st1.result hne2]
    dsimp only
    refine ⟨_, rfl, rfl, ?_⟩
    show (trimResult 3 _ ++ [ELLIPSIS]).getLast? = some ELLIPSIS
    exact List.getLast?_concat _

/-- Witness for C7: the string `"a\nb"` under a two-line budget
(`maxlines = 1`) signals `_Maxlines` and comes back incomplete with a
trailing ellipsis. -/
theorem claim_C7_witness :
    ∃ r, pyvalColorize { linelen := some 80, maxlines := 1, linebreakok := true }
        (.str "a\nb") none = Except.ok r ∧ r.isComplete = false ∧
        r.document.getLast? = some ELLIPSIS :=
  claim_C7_truncation_ellipsis { linelen := some 80, maxlines := 1, linebreakok := true }
    (.str "a\nb")
    { result := [Fragment.inline "variable-quote" "'''",
                 Fragment.inline "variable-string" "a", Fragment.text ""],
      charpos := 4, lineno := 1, linebreakok := true, score := 1 }
    (by simp [colorizeVal, colorizeStr, colorizeStrLines, strEscape, escChar, initState,
      isPyConstant, seqE, output, outputGo, splitNlList, mkFragment, QUOTE_TAG,
      STRING_TAG])
    (Or.inl rfl)

/-- The truncation fallback is insensitive to the minimum score except for
the final document substitution: under a minimum score that the computed
score misses, the same state is packaged with the document replaced by the
unknown marker. -/
theorem topFallback_minScore (cfg : Cfg) (st : ColorizerState) (m : Int)
    (r0 : ColorizedRepr) (h : topFallback cfg st none = Except.ok r0)
    (hm : r0.score < m) :
    topFallback cfg st (some m)
      = Except.ok { document := [UNKNOWN_REPR], score := r0.score,
                    isComplete := r0.isComplete } := by
  unfold topFallback at h ⊢
  by_cases hbk : cfg.linebreakok = true
  · rw [if_pos hbk] at h ⊢
    have hr := Except.ok.inj h
    subst hr
    have hm2 : st.score < m := by simpa [finishRepr] using hm
    simp [finishRepr, hm2]
  · rw [if_neg hbk] at h ⊢
    rcases hlast : st.result.getLast? with _ | f
    · simp only [hlast] at h
      exact absurd h (by simp)
    · simp only [hlast] at h ⊢
      try dsimp only at h ⊢
      have hr := Except.ok.inj h
      subst hr
      have hm2 : st.score < m := by simpa [finishRepr] using hm
      simp [finishRepr, hm2]

/-- C10: when the computed score misses the given minimum score, only the
document is replaced by the single unknown-placeholder fragment; the score
and completeness flag returned are exactly those of the run without a
minimum score. -/
theorem claim_C10_min_score_frame (cfg : Cfg) (v : PyVal) (m : Int)
    (r0 : ColorizedRepr) (h : pyvalColorize cfg v none = Except.ok r0)
    (hm : r0.score < m) :
    pyvalColorize cfg v (some m)
      = Except.ok { document := [UNKNOWN_REPR], score := r0.score,
                    isComplete := r0.isComplete } := by
  unfold pyvalColorize at h ⊢
  rcases hcv : colorizeVal cfg v (initState cfg) with ⟨st, e⟩
  rw [hcv] at h
  match e, h with
  | none, h =>
    dsimp only at h ⊢
    have hr := Except.ok.inj h
    subst hr
    have hm2 : st.score < m := by simpa [finishRepr] using hm
    simp [finishRepr, hm2]
  | some PyErr.maxlines, h =>
    dsimp only at h ⊢
    exact topFallback_minScore cfg st m r0 h hm
  | some PyErr.linebreak, h =>
    dsimp only at h ⊢
    exact topFallback_minScore cfg st m r0 h hm
  | some PyErr.typeError, h => exact absurd h (by simp)
  | some PyErr.valueError, h => exact absurd h (by simp)
  | some PyErr.reError, h => exact absurd h (by simp)
  | some PyErr.indexError, h => exact absurd h (by simp)

/-- Witness for C10: an un-reprable value scores `-99`; under a minimum
score of 0 the document collapses to the unknown marker while the score
and the completeness flag are those of the unconstrained run. -/
theorem claim_C10_witness :
    pyvalColorize defaultCfg (.other none) (some 0)
      = Except.ok { document := [UNKNOWN_REPR], score := -99, isComplete := true } :=
  claim_C10_min_score_frame defaultCfg (.other none) 0
    { document := [UNKNOWN_REPR], score := -99, isComplete := true }
    (by simp [pyvalColorize, colorizeVal, initState, defaultCfg, isPyConstant,
      finishRepr, UNKNOWN_REPR])
    (by decide)

/-- C1 (code bug): for the call node `re.compile("(")` the callee resolves
to the dotted name `re.compile`, the arguments bind against the compile
signature, and the pattern string fails to parse — yet `_colorize_ast_call`
raises `TypeError` (after restoring the pre-attempt snapshot) instead of
completing with a generic call rendering, because the fallback invocation
`self._colorize_ast_call_generic(args, node, state)` passes one positional
argument too many.  The generic renderer itself would have completed
without raising, as the last conjunct shows. -/
theorem claim_C1_re_failure_raises :
    node2dottedname reCallee = some ["re", "compile"]
    ∧ bindReCompile [.constant (.str "(")] []
        = Except.ok { pattern := some (.constant (.str "(")), flags := none }
    ∧ sreParse "(" = Except.error ()
    ∧ colorizeAstCall defaultCfg reCallee [.constant (.str "(")] []
        (initState defaultCfg)
      = (initState defaultCfg, some PyErr.typeError)
    ∧ (colorizeAstCallGeneric defaultCfg reCallee [.constant (.str "(")] []
        (initState defaultCfg)).2 = none := by
  refine ⟨rfl, rfl, rfl, ?_, ?_⟩
  · simp [colorizeAstCall, colorizeAstRe, colorizeAst, colorizeRePattern, colorizeVal,
      node2dottedname, reCallee, bindReCompile, posBind, applyKws, isAstConstant,
      astConstantVal, attrParts, markOf, restoreSt, seqE, output, outputGo,
      splitNlList, mkFragment, initState, defaultCfg, LINK_TAG, GROUP_TAG, QUOTE_TAG,
      sreParse, parseAlts, parseSeq, sreRejected, String.intercalate]
  · simp [colorizeAstCallGeneric, colorizeAst, colorizeAstIter, colorizeAstIterGo,
      colorizeVal, colorizeStr, colorizeStrLines, strEscape, escChar, multiline,
      markOf, restoreSt, node2dottedname, reCallee, attrParts, isPyConstant,
      insertComma, seqE, output, outputGo, splitNlList, mkFragment, initState,
      defaultCfg, LINK_TAG, GROUP_TAG, QUOTE_TAG, STRING_TAG, String.intercalate]

/-- C2 (code bug): the top-level entry operation does not return normally
for every input value: for the value holding the AST call node
`re.compile("(")` it raises `TypeError` to its caller. -/
theorem claim_C2_toplevel_raises :
    pyvalColorize defaultCfg (.astNode badReCall) none
      = Except.error PyErr.typeError := by
  simp [pyvalColorize, badReCall, colorizeVal, colorizeAst, colorizeAstCall,
    colorizeAstRe, colorizeRePattern, node2dottedname, reCallee, bindReCompile,
    posBind, applyKws, isAstConstant, astConstantVal, attrParts, markOf, restoreSt,
    seqE, output, outputGo, splitNlList, mkFragment, initState, defaultCfg,
    isPyConstant, LINK_TAG, GROUP_TAG, QUOTE_TAG, sreParse, parseAlts, parseSeq,
    sreRejected, String.intercalate]

/-- When the callee is the dotted name `re.compile`, the arguments bind,
and the regex rendering succeeds, `_colorize_ast_call` returns the regex
rendering's result unchanged. -/
theorem colorizeAstCall_re_ok (cfg : Cfg) (f : AstExpr) (args kws : List AstExpr)
    (st st1 : ColorizerState) (b : BoundArgs)
    (hnd : node2dottedname f = some ["re", "compile"])
    (hb : bindReCompile args kws = Except.ok b)
    (hre : colorizeAstRe cfg f args kws st = (st1, none)) :
    colorizeAstCall cfg f args kws st = (st1, none) := by
  rw [colorizeAstCall, if_pos hnd, hb, hre]

/-- An AST-node value is colorized by bumping the score and dispatching to
the AST renderer. -/
theorem colorizeVal_astNode (cfg : Cfg) (e : AstExpr) (st0 : ColorizerState) :
    colorizeVal cfg (.astNode e) st0
      = colorizeAst cfg e { st0 with score := st0.score + 1 } := by
  rw [colorizeVal]
  rw [if_neg (by simp [isPyConstant])]

/-- A call node dispatches to `_colorize_ast_call`. -/
theorem colorizeAst_call (cfg : Cfg) (f : AstExpr) (args kws : List AstExpr)
    (st : ColorizerState) :
    colorizeAst cfg (.call f args kws) st = colorizeAstCall cfg f args kws st := by
  rw [colorizeAst]

/-- A colorization that raised nothing is packaged directly. -/
theorem pyvalColorize_done (cfg : Cfg) (v : PyVal) (st : ColorizerState)
    (h : colorizeVal cfg v (initState cfg) = (st, none)) :
    pyvalColorize cfg v none = Except.ok (finishRepr st true none) := by
  unfold pyvalColorize
  rw [h]

/-- C9: colorizing the call node `re.compile(r"a|b")` with no flags
argument yields fragments whose concatenated text is exactly
`re.compile(r'a|b')`, the module-qualified callee preserved from the node
and the regex literal round-tripped through the pattern parser and the
regex renderer. -/
theorem claim_C9_re_roundtrip :
    pyvalColorize defaultCfg (.astNode abReCall) none
      = Except.ok { document := abReFragments, score := 1, isComplete := true }
    ∧ concatText abReFragments = "re.compile(r'a|b')" := by
  have hnd : node2dottedname reCallee = some ["re", "compile"] := rfl
  have hbindok : bindReCompile [.constant (.str "a|b")] []
      = Except.ok { pattern := some (.constant (.str "a|b")), flags := none } := rfl
  have h2 : colorizeAst defaultCfg reCallee
      { result := [], charpos := 0, lineno := 1, linebreakok := true, score := 1 }
      = ({ result := [Fragment.link "re.compile"], charpos := 10, lineno := 1,
           linebreakok := true, score := 1 }, none) := by
    have hic : String.intercalate "." ["re", "compile"] = "re.compile" := rfl
    simp [colorizeAst, reCallee, attrParts, hic, output, outputGo, splitNlList,
      mkFragment, LINK_TAG, defaultCfg, seqE]
  have h3 : output defaultCfg "(" GROUP_TAG false
      { result := [Fragment.link "re.compile"], charpos := 10, lineno := 1,
        linebreakok := true, score := 1 }
      = ({ result := [Fragment.link "re.compile", Fragment.text "("], charpos := 11,
           lineno := 1, linebreakok := true, score := 1 }, none) := by
    simp [output, outputGo, splitNlList, mkFragment, GROUP_TAG, defaultCfg]
  have h4 : output defaultCfg "r" none false
      { result := [Fragment.link "re.compile", Fragment.text "("], charpos := 11,
        lineno := 1, linebreakok := true, score := 1 }
      = ({ result := [Fragment.link "re.compile", Fragment.text "(", Fragment.text "r"],
           charpos := 12, lineno := 1, linebreakok := true, score := 1 }, none) := by
    simp [output, outputGo, splitNlList, mkFragment, defaultCfg]
  have h5 : output defaultCfg "'" QUOTE_TAG false
      { result := [Fragment.link "re.compile", Fragment.text "(", Fragment.text "r"],
        charpos := 12, lineno := 1, linebreakok := true, score := 1 }
      = ({ result := [Fragment.link "re.compile", Fragment.text "(", Fragment.text "r",
                      Fragment.inline "variable-quote" "'"],
           charpos := 13, lineno := 1, linebreakok := true, score := 1 }, none) := by
    simp [output, outputGo, splitNlList, mkFragment, QUOTE_TAG, defaultCfg]
  have h6 : colorizeRePattern defaultCfg (some (.str "a|b"))
      { result := [Fragment.link "re.compile", Fragment.text "(", Fragment.text "r",
                   Fragment.inline "variable-quote" "'"],
        charpos := 13, lineno := 1, linebreakok := true, score := 1 }
      = ({ result := [Fragment.link "re.compile", Fragment.text "(", Fragment.text "r",
                      Fragment.inline "variable-quote" "'", Fragment.text "a",
                      Fragment.inline "re-op" "|", Fragment.text "b"],
           charpos := 16, lineno := 1, linebreakok := true, score := 1 }, none) := by
    have hp : sreParse "a|b"
        = Except.ok [RegexElt.branch none [[.literal 97], [.literal 98]]] := rfl
    have hra : reLiteralStr 97 = "a" := rfl
    have hrb : reLiteralStr 98 = "b" := rfl
    simp [colorizeRePattern, hp, colorizeReTree, colorizeReElts, colorizeReElt,
      colorizeReAlts, hra, hrb, lookupGroup, output, outputGo, splitNlList,
      mkFragment, RE_CHAR_TAG, RE_OP_TAG, defaultCfg, seqE]
  have h7 : output defaultCfg "'" QUOTE_TAG false
      { result := [Fragment.link "re.compile", Fragment.text "(", Fragment.text "r",
                   Fragment.inline "variable-quote" "'", Fragment.text "a",
                   Fragment.inline "re-op" "|", Fragment.text "b"],
        charpos := 16, lineno := 1, linebreakok := true, score := 1 }
      = ({ result := [Fragment.link "re.compile", Fragment.text "(", Fragment.text "r",
                      Fragment.inline "variable-quote" "'", Fragment.text "a",
                      Fragment.inline "re-op" "|", Fragment.text "b",
                      Fragment.inline "variable-quote" "'"],
           charpos := 17, lineno := 1, linebreakok := true, score := 1 }, none) := by
    simp [output, outputGo, splitNlList, mkFragment, QUOTE_TAG, defaultCfg]
  have h8 : output defaultCfg ")" GROUP_TAG false
      { result := [Fragment.link "re.compile", Fragment.text "(", Fragment.text "r",
                   Fragment.inline "variable-quote" "'", Fragment.text "a",
                   Fragment.inline "re-op" "|", Fragment.text "b",
                   Fragment.inline "variable-quote" "'"],
        charpos := 17, lineno := 1, linebreakok := true, score := 1 }
      = ({ result := abReFragments, charpos := 18, lineno := 1, linebreakok := true,
           score := 1 }, none) := by
    simp [output, outputGo, splitNlList, mkFragment, GROUP_TAG, defaultCfg,
      abReFragments]
  have hre : colorizeAstRe defaultCfg reCallee [.constant (.str "a|b")] []
      { result := [], charpos := 0, lineno := 1, linebreakok := true, score := 1 }
      = ({ result := abReFragments, charpos := 18, lineno := 1, linebreakok := true,
           score := 1 }, none) := by
    simp only [colorizeAstRe, hbindok, isAstConstant, astConstantVal, seqE,
      h2, h3, h4, h5, h6, h7, h8]
    split
    · rename_i a hbind
      rw [hbindok] at hbind
      exact absurd hbind (by simp)
    · rename_i bargs hbind
      rw [hbindok] at hbind
      have hb2 := Except.ok.inj hbind
      subst hb2
      simp only [h6, h7, h8]
      rw [if_pos trivial]
  have hcall := colorizeAstCall_re_ok defaultCfg reCallee [.constant (.str "a|b")] []
    _ _ { pattern := some (.constant (.str "a|b")), flags := none } hnd hbindok hre
  have hv : colorizeVal defaultCfg (.astNode abReCall) (initState defaultCfg)
      = ({ result := abReFragments, charpos := 18, lineno := 1, linebreakok := true,
           score := 1 }, none) := by
    rw [show (PyVal.astNode abReCall)
        = PyVal.astNode (.call reCallee [.constant (.str "a|b")] []) from rfl]
    rw [colorizeVal_astNode, colorizeAst_call]
    exact hcall
  constructor
  · rw [pyvalColorize_done defaultCfg _ _ hv]
    simp [finishRepr]
  · simp [abReFragments, concatText, Fragment.astext]

end PydoctorRepr
